import Mathlib

/-!
# Verification of `structuresmith` (`cmd/action/main.go`)

Shallow embedding of the template-resolution and file-materialization
engine of `cmd/action/main.go`, together with theorems settling the
frozen claims about its specification.

Modelling conventions:
* Go file paths are modelled as lists of path components
  (`Path := List String`); `filepath.Join` is list append,
  `filepath.Dir` drops the last component, `filepath.Base` keeps it.
  Path components are treated atomically (no `.`/`..` resolution).
* Go `map[string]T` is modelled as an association list with
  insert-replace (`mapSet`) and first-match lookup (`mapGet`); a `nil`
  map is the empty list.
* YAML scalar values (`interface{}`) are modelled by a small `Value`
  type; the engine treats them opaquely.
* The filesystem is an explicit state: a map from full paths to file
  contents, a set of existing directories, and a trace of the external
  read/fetch effects performed.  `os.Create` truncates, `os.WriteFile`
  overwrites, `os.MkdirAll` records the directory and its ancestors,
  `os.RemoveAll` removes everything under a path.  Environmental I/O
  failures of purely local operations (create/write/mkdir/remove) are
  out of scope; reads of missing files and failed HTTP fetches are
  modelled as errors, matching the code's error returns.
* The Go `text/template` engine is an external collaborator; it is
  modelled as an abstract parameter returning either a parse error,
  an execution error together with the partial output already written
  to the destination file, or the rendered output.
* `url.ParseRequestURI` is likewise abstracted as a `String → Bool`
  validity predicate parameter.
-/

set_option autoImplicit false

namespace Structuresmith

/-- A file path, as its list of components (`filepath.Join` = append). -/
abbrev Path := List String

/-- A YAML scalar value (Go `interface{}` as deserialized from YAML). -/
inductive Value where
  | str (s : String)
  | num (n : Int)
  | bool (b : Bool)
deriving DecidableEq, Repr

/-- Go `map[string]interface{}`, as an association list. -/
abbrev Values := List (String × Value)

instance {ε α : Type} [DecidableEq ε] [DecidableEq α] : DecidableEq (Except ε α) :=
  fun x y =>
    match x, y with
    | .error a, .error b =>
        if h : a = b then isTrue (by rw [h])
        else isFalse (by intro hh; cases hh; exact h rfl)
    | .ok a, .ok b =>
        if h : a = b then isTrue (by rw [h])
        else isFalse (by intro hh; cases hh; exact h rfl)
    | .error _, .ok _ => isFalse (by intro hh; cases hh)
    | .ok _, .error _ => isFalse (by intro hh; cases hh)

/-- Go map insertion: replace the binding of `k` if present, else append. -/
def mapSet {K V : Type} [DecidableEq K] : List (K × V) → K → V → List (K × V)
  | [], k, v => [(k, v)]
  | (k', v') :: rest, k, v =>
      if k' = k then (k, v) :: rest else (k', v') :: mapSet rest k v

/-- Go map lookup. -/
def mapGet {K V : Type} [DecidableEq K] : List (K × V) → K → Option V
  | [], _ => none
  | (k', v) :: rest, k => if k' = k then some v else mapGet rest k

/-- `mergeValues` from `main.go`: make an empty map, copy the file-level
values into it, then overwrite with the group-level values. -/
def mergeValues (groupValues fileValues : Values) : Values :=
  let merged : Values := []
  let merged := fileValues.foldl (fun m p => mapSet m p.1 p.2) merged
  groupValues.foldl (fun m p => mapSet m p.1 p.2) merged

@[simp] theorem mapGet_nil {K V : Type} [DecidableEq K] (k : K) :
    mapGet ([] : List (K × V)) k = none := rfl

theorem mapGet_mapSet_self {K V : Type} [DecidableEq K]
    (m : List (K × V)) (k : K) (v : V) : mapGet (mapSet m k v) k = some v := by
  induction m with
  | nil => simp [mapSet, mapGet]
  | cons p rest ih =>
      obtain ⟨k', v'⟩ := p
      by_cases h : k' = k
      · simp [mapSet, h, mapGet]
      · simp [mapSet, h, mapGet, ih]

theorem mapGet_mapSet_ne {K V : Type} [DecidableEq K]
    (m : List (K × V)) (k k' : K) (v : V) (h : k ≠ k') :
    mapGet (mapSet m k v) k' = mapGet m k' := by
  induction m with
  | nil => simp [mapSet, mapGet, h]
  | cons p rest ih =>
      obtain ⟨k₀, v₀⟩ := p
      by_cases h₀ : k₀ = k
      · subst h₀
        simp [mapSet, mapGet, h]
      · simp [mapSet, h₀]
        by_cases h₁ : k₀ = k'
        · simp [mapGet, h₁]
        · simp [mapGet, h₁, ih]

theorem mapGet_eq_none_of_not_mem_keys {K V : Type} [DecidableEq K]
    (m : List (K × V)) (k : K) (h : k ∉ m.map Prod.fst) : mapGet m k = none := by
  induction m with
  | nil => rfl
  | cons p rest ih =>
      obtain ⟨k', v'⟩ := p
      simp only [List.map_cons, List.mem_cons] at h
      push_neg at h
      simp [mapGet, Ne.symm h.1, ih h.2]

/-- Folding map-insertion over a duplicate-key-free list: lookup is the
list's own binding when present, else the initial map's. -/
theorem mapGet_foldl_mapSet {K V : Type} [DecidableEq K]
    (l : List (K × V)) (init : List (K × V)) (k : K)
    (hnd : (l.map Prod.fst).Nodup) :
    mapGet (l.foldl (fun m p => mapSet m p.1 p.2) init) k =
      (mapGet l k).orElse (fun _ => mapGet init k) := by
  induction l generalizing init with
  | nil => simp [mapGet]
  | cons p rest ih =>
      obtain ⟨k₀, v₀⟩ := p
      simp only [List.map_cons, List.nodup_cons] at hnd
      rw [List.foldl_cons]
      rw [ih (mapSet init k₀ v₀) hnd.2]
      by_cases h : k₀ = k
      · subst h
        have : mapGet rest k₀ = none :=
          mapGet_eq_none_of_not_mem_keys rest k₀ hnd.1
        simp [mapGet, this, mapGet_mapSet_self]
      · simp [mapGet, h, mapGet_mapSet_ne init k₀ k v₀ h]

/-- `mergeValues` lookup semantics: group values win key-for-key,
file values fill in the rest, nothing else is present. -/
theorem mergeValues_mapGet (groupValues fileValues : Values) (k : String)
    (hg : (groupValues.map Prod.fst).Nodup)
    (hf : (fileValues.map Prod.fst).Nodup) :
    mapGet (mergeValues groupValues fileValues) k =
      (mapGet groupValues k).orElse (fun _ => mapGet fileValues k) := by
  unfold mergeValues
  rw [mapGet_foldl_mapSet _ _ _ hg, mapGet_foldl_mapSet _ _ _ hf]
  cases mapGet groupValues k <;> cases mapGet fileValues k <;> rfl

/-- `FileStructure` from `main.go`.  An empty `sourceFile` path (`[]`),
empty `sourceURL` and empty `content` correspond to Go's `""`: the
variant is unpopulated. -/
structure FileStructure where
  filename   : Path
  sourceFile : Path
  sourceURL  : String
  content    : String
  values     : Values
deriving DecidableEq, Repr

/-- `TemplateGroupRef` from `main.go`. -/
structure TemplateGroupRef where
  groupName : String
  values    : Values
deriving DecidableEq, Repr

/-- `RepositoryConfig` from `main.go`. -/
structure RepositoryConfig where
  name   : String
  files  : List FileStructure
  groups : List TemplateGroupRef
deriving DecidableEq, Repr

/-- `Repository` from `main.go` (same fields as `RepositoryConfig`). -/
structure Repository where
  name   : String
  files  : List FileStructure
  groups : List TemplateGroupRef
deriving DecidableEq, Repr

/-- `Config` from `main.go`; the Go `map[string][]FileStructure` of
template groups is an association list. -/
structure Config where
  templateGroups : List (String × List FileStructure)
  repositories   : List RepositoryConfig
deriving DecidableEq, Repr

/-- `filepath.Join` on component lists. -/
def pathJoin (a b : Path) : Path := a ++ b

/-- `filepath.Dir`: everything but the last component. -/
def pathDir (p : Path) : Path := p.dropLast

/-- `filepath.Base`: the last component. -/
def pathBase (p : Path) : Path :=
  match p.getLast? with
  | some s => [s]
  | none => []

/-- An externally observable effect: an HTTP fetch or a read of a
template source file. -/
inductive Event where
  | fetch (url : String)
  | readFile (p : Path)
deriving DecidableEq, Repr

/-- Filesystem state: file contents keyed by full path, the set of
directories that exist, and the trace of external reads performed. -/
structure FS where
  files : List (Path × String)
  dirs  : List Path
  trace : List Event
deriving DecidableEq, Repr

/-- The empty filesystem. -/
def FS.empty : FS := ⟨[], [], []⟩

/-- `os.Create`: create the file, truncating any existing content. -/
def FS.createFile (fs : FS) (p : Path) : FS :=
  { fs with files := mapSet fs.files p "" }

/-- Overwrite the file at `p` with content `s` (`os.WriteFile`, or the
template engine writing its rendered output into a freshly created file). -/
def FS.setFile (fs : FS) (p : Path) (s : String) : FS :=
  { fs with files := mapSet fs.files p s }

/-- `os.MkdirAll`: record the directory and all its ancestors. -/
def FS.mkdirAll (fs : FS) (p : Path) : FS :=
  { fs with dirs := p.inits.foldl (fun ds d => if d ∈ ds then ds else ds ++ [d]) fs.dirs }

/-- `os.Stat` + `os.IsNotExist`: does a file or directory exist at
exactly this path? -/
def FS.pathExists (fs : FS) (p : Path) : Bool :=
  decide (p ∈ fs.dirs) || decide (p ∈ fs.files.map Prod.fst)

/-- `os.RemoveAll`: remove every file and directory at or under `p`. -/
def FS.removeAll (fs : FS) (p : Path) : FS :=
  { fs with
    files := fs.files.filter (fun q => !(p.isPrefixOf q.1))
    dirs := fs.dirs.filter (fun d => !(p.isPrefixOf d)) }

/-- Record an external-effect event. -/
def FS.log (fs : FS) (e : Event) : FS :=
  { fs with trace := fs.trace ++ [e] }

/-- A materialization-time error (`fmt.Errorf` results in `main.go`;
wrapping text is dropped, the failure kind is kept). -/
inductive MErr where
  | downloadErr (url : String)
  | readErr (p : Path)
  | parseErr
  | execErr
  | groupNotFound (name : String)
deriving DecidableEq, Repr

/-- Outcome of the external `text/template` engine on one content/values
pair: `Template.Parse` fails; or `Template.Execute` fails after having
written `partOut` to the destination; or rendering succeeds. -/
inductive RenderResult where
  | parseError
  | execError (partOut : String)
  | ok (output : String)
deriving DecidableEq, Repr

/-- The external template engine (`text/template`), abstracted. -/
structure TemplateEngine where
  render : String → Values → RenderResult

/-- An HTTP response, as far as `downloadFileContent` inspects it. -/
structure HttpResponse where
  status : Nat
  body   : String
deriving DecidableEq, Repr

/-- The external network: `none` models a transport error. -/
structure Env where
  net : String → Option HttpResponse

/-- `downloadFileContent` from `main.go`: fetch the URL; a transport
error or a status ≥ 400 is an error, otherwise the body is returned. -/
def downloadFileContent (env : Env) (fs : FS) (fileURL : String) :
    FS × Except MErr String :=
  let fs := fs.log (.fetch fileURL)
  match env.net fileURL with
  | none => (fs, .error (.downloadErr fileURL))
  | some resp =>
      if resp.status ≥ 400 then (fs, .error (.downloadErr fileURL))
      else (fs, .ok resp.body)

/-- `os.ReadFile` of a template source file (with its trace event). -/
def readSourceFile (fs : FS) (p : Path) : FS × Except MErr String :=
  let fs := fs.log (.readFile p)
  match mapGet fs.files p with
  | none => (fs, .error (.readErr p))
  | some content => (fs, .ok content)

/-- `createTemplatedFile` from `main.go`: `os.Create` the destination
(truncating it), parse the content as a template, and execute it into
the file; a parse failure leaves the truncated file, an execution
failure leaves the partial output. -/
def createTemplatedFile (eng : TemplateEngine) (fs : FS) (path : Path)
    (content : String) (values : Values) : FS × Except MErr Unit :=
  let fs := fs.createFile path
  match eng.render content values with
  | .parseError => (fs, .error .parseErr)
  | .execError partOut => (fs.setFile path partOut, .error .execErr)
  | .ok output => (fs.setFile path output, .ok ())

/-- `copyContentToFile` from `main.go`: `os.WriteFile` of the content. -/
def copyContentToFile (fs : FS) (content : String) (filePath : Path) :
    FS × Except MErr Unit :=
  (fs.setFile filePath content, .ok ())

/-- `copyFile` from `main.go`: re-read the source file and write its
bytes to the destination. -/
def copyFile (fs : FS) (src dst : Path) : FS × Except MErr Unit :=
  match readSourceFile fs src with
  | (fs, .error e) => (fs, .error e)
  | (fs, .ok input) => (fs.setFile dst input, .ok ())

/-- `createFileFromTemplate` from `main.go`: make the destination
directory, then select the source by fixed priority (inline content,
then URL, then local file), render it, falling back to a verbatim copy
on render failure for URL and local-file sources. -/
def createFileFromTemplate (env : Env) (eng : TemplateEngine)
    (repoName : String) (file : FileStructure) (outputPath : Path)
    (fs : FS) : FS × Except MErr Unit :=
  let outDir := pathJoin (pathJoin outputPath [repoName]) (pathDir file.filename)
  let fs := fs.mkdirAll outDir
  let fullPath := pathJoin outDir (pathBase file.filename)
  if file.content ≠ "" then
    createTemplatedFile eng fs fullPath file.content file.values
  else if file.sourceURL ≠ "" then
    match downloadFileContent env fs file.sourceURL with
    | (fs, .error e) => (fs, .error e)
    | (fs, .ok content) =>
        match createTemplatedFile eng fs fullPath content file.values with
        | (fs, .error _) => copyContentToFile fs content fullPath
        | (fs, .ok _) => (fs, .ok ())
  else if file.sourceFile ≠ [] then
    match readSourceFile fs file.sourceFile with
    | (fs, .error e) => (fs, .error e)
    | (fs, .ok content) =>
        match createTemplatedFile eng fs fullPath content file.values with
        | (fs, .error _) => copyFile fs file.sourceFile fullPath
        | (fs, .ok _) => (fs, .ok ())
  else (fs, .ok ())

/-- The body of the direct-file loop of `processRepository` (and of the
loop in `generateFilesFromTemplate`): materialize each file in order,
returning at the first failure. -/
def processFileList (env : Env) (eng : TemplateEngine) (repoName : String)
    (files : List FileStructure) (outputPath : Path) (fs : FS) :
    FS × Except MErr Unit :=
  match files with
  | [] => (fs, .ok ())
  | file :: rest =>
      match createFileFromTemplate env eng repoName file outputPath fs with
      | (fs, .error e) => (fs, .error e)
      | (fs, .ok _) => processFileList env eng repoName rest outputPath fs

/-- `generateFilesFromTemplate` from `main.go`: materialize a template's
files in order, first failure wins. -/
def generateFilesFromTemplate (env : Env) (eng : TemplateEngine)
    (repoName : String) (files : List FileStructure) (outputPath : Path)
    (fs : FS) : FS × Except MErr Unit :=
  processFileList env eng repoName files outputPath fs

/-- The group loop of `processRepository`: look each referenced group
up, attach the merged values to per-request copies of its files, and
generate them. -/
def processGroups (env : Env) (eng : TemplateEngine) (repoName : String)
    (groups : List TemplateGroupRef)
    (globalGroups : List (String × List FileStructure)) (outputPath : Path)
    (fs : FS) : FS × Except MErr Unit :=
  match groups with
  | [] => (fs, .ok ())
  | groupRef :: rest =>
      match mapGet globalGroups groupRef.groupName with
      | none => (fs, .error (.groupNotFound groupRef.groupName))
      | some group =>
          let tfiles := group.map (fun file =>
            { file with values := mergeValues groupRef.values file.values })
          match generateFilesFromTemplate env eng repoName tfiles outputPath fs with
          | (fs, .error e) => (fs, .error e)
          | (fs, .ok _) => processGroups env eng repoName rest globalGroups outputPath fs

/-- `deleteExistingDir` from `main.go`: absence is not an error,
otherwise recursively delete. -/
def deleteExistingDir (fs : FS) (dirPath : Path) : FS × Except MErr Unit :=
  if fs.pathExists dirPath = false then (fs, .ok ())
  else (fs.removeAll dirPath, .ok ())

/-- `processRepository` from `main.go`: clear the repository's output
subtree, materialize the direct files in order, then expand each
referenced group; first failure aborts. -/
def processRepository (env : Env) (eng : TemplateEngine) (repo : Repository)
    (globalGroups : List (String × List FileStructure)) (outputPath : Path)
    (fs : FS) : FS × Except MErr Unit :=
  let repoOutputPath := pathJoin outputPath [repo.name]
  match deleteExistingDir fs repoOutputPath with
  | (fs, .error e) => (fs, .error e)
  | (fs, .ok _) =>
      match processFileList env eng repo.name repo.files outputPath fs with
      | (fs, .error e) => (fs, .error e)
      | (fs, .ok _) => processGroups env eng repo.name repo.groups globalGroups outputPath fs

/-- A validation-time error (the `fmt.Errorf` cases of the validators). -/
inductive VErr where
  | duplicateRepoName (n : String)
  | duplicateGroup (n : String)
  | conflictingSource (filename : Path)
  | missingSourceFile (p : Path)
  | unknownGroup (repo group : String)
  | invalidURL (u : String)
deriving DecidableEq, Repr

/-- The loop of `validateDuplicateRepoNames`, with its `repoNames` set. -/
def validateRepoNamesLoop (seen : List String) :
    List RepositoryConfig → Except VErr Unit
  | [] => .ok ()
  | repo :: rest =>
      if repo.name ∈ seen then .error (.duplicateRepoName repo.name)
      else validateRepoNamesLoop (repo.name :: seen) rest

/-- `validateDuplicateRepoNames` from `main.go`. -/
def validateDuplicateRepoNames (repos : List RepositoryConfig) : Except VErr Unit :=
  validateRepoNamesLoop [] repos

/-- The loop of `validateDuplicateTemplateGroups`, with its `groupNames`
set. -/
def validateGroupNamesLoop (seen : List String) :
    List (String × List FileStructure) → Except VErr Unit
  | [] => .ok ()
  | (name, _) :: rest =>
      if name ∈ seen then .error (.duplicateGroup name)
      else validateGroupNamesLoop (name :: seen) rest

/-- `validateDuplicateTemplateGroups` from `main.go` (iterating the
group map's keys). -/
def validateDuplicateTemplateGroups
    (groups : List (String × List FileStructure)) : Except VErr Unit :=
  validateGroupNamesLoop [] groups

/-- The per-file body of `validateFileStructures`: reject a file with
both `SourceFile` and `Content` set, and a `SourceFile` that does not
exist on the filesystem (`world`). -/
def validateOneFileStructure (world : FS) (file : FileStructure) : Except VErr Unit :=
  if file.sourceFile ≠ [] ∧ file.content ≠ "" then
    .error (.conflictingSource file.filename)
  else if file.sourceFile ≠ [] ∧ world.pathExists file.sourceFile = false then
    .error (.missingSourceFile file.sourceFile)
  else .ok ()

/-- The inner file loop of `validateFileStructures`. -/
def validateFilesLoop (world : FS) : List FileStructure → Except VErr Unit
  | [] => .ok ()
  | file :: rest =>
      match validateOneFileStructure world file with
      | .error e => .error e
      | .ok _ => validateFilesLoop world rest

/-- `validateFileStructures` from `main.go`: the checks above, for every
file of every template group (and of template groups only). -/
def validateFileStructures (groups : List (String × List FileStructure))
    (world : FS) : Except VErr Unit :=
  match groups with
  | [] => .ok ()
  | (_, files) :: rest =>
      match validateFilesLoop world files with
      | .error e => .error e
      | .ok _ => validateFileStructures rest world

/-- The inner loop of `validateRepoGroupReferences` over one
repository's group references. -/
def validateRefsLoop (groups : List (String × List FileStructure))
    (repoName : String) : List TemplateGroupRef → Except VErr Unit
  | [] => .ok ()
  | ref :: rest =>
      match mapGet groups ref.groupName with
      | none => .error (.unknownGroup repoName ref.groupName)
      | some _ => validateRefsLoop groups repoName rest

/-- `validateRepoGroupReferences` from `main.go`. -/
def validateRepoGroupReferences (repos : List RepositoryConfig)
    (groups : List (String × List FileStructure)) : Except VErr Unit :=
  match repos with
  | [] => .ok ()
  | repo :: rest =>
      match validateRefsLoop groups repo.name repo.groups with
      | .error e => .error e
      | .ok _ => validateRepoGroupReferences rest groups

/-- The inner file loop of `validateURLSchemes`; `validURL` abstracts
`url.ParseRequestURI` succeeding. -/
def validateURLsLoop (validURL : String → Bool) :
    List FileStructure → Except VErr Unit
  | [] => .ok ()
  | file :: rest =>
      if file.sourceURL ≠ "" ∧ validURL file.sourceURL = false then
        .error (.invalidURL file.sourceURL)
      else validateURLsLoop validURL rest

/-- `validateURLSchemes` from `main.go`: the URL check, for every file
of every template group (and of template groups only). -/
def validateURLSchemes (groups : List (String × List FileStructure))
    (validURL : String → Bool) : Except VErr Unit :=
  match groups with
  | [] => .ok ()
  | (_, files) :: rest =>
      match validateURLsLoop validURL files with
      | .error e => .error e
      | .ok _ => validateURLSchemes rest validURL

/-- `validateConfig` from `main.go`: the five checks in order, first
failure wins. -/
def validateConfig (config : Config) (world : FS) (validURL : String → Bool) :
    Except VErr Unit :=
  match validateDuplicateRepoNames config.repositories with
  | .error e => .error e
  | .ok _ =>
  match validateDuplicateTemplateGroups config.templateGroups with
  | .error e => .error e
  | .ok _ =>
  match validateFileStructures config.templateGroups world with
  | .error e => .error e
  | .ok _ =>
  match validateRepoGroupReferences config.repositories config.templateGroups with
  | .error e => .error e
  | .ok _ => validateURLSchemes config.templateGroups validURL

/-- The path-rewriting pass of `readConfig` from `main.go`: after
unmarshalling, every template-group file with a non-empty `SourceFile`
has it joined with the templates directory.  (Reading and unmarshalling
the YAML bytes are external; this is the whole in-scope transformation
`readConfig` applies to the parsed configuration.) -/
def readConfigTransform (templatesDir : Path) (config : Config) : Config :=
  { config with
    templateGroups := config.templateGroups.map (fun g =>
      (g.1, g.2.map (fun file =>
        if file.sourceFile ≠ [] then
          { file with sourceFile := pathJoin templatesDir file.sourceFile }
        else file))) }

/-! ## Concrete fixtures used by counterexamples and witnesses -/

/-- The group-level map `{a:1, b:2}` of the spec's merge example. -/
def mergeExampleGroup : Values := [("a", .num 1), ("b", .num 2)]

/-- The file-level map `{b:3, c:4}` of the spec's merge example. -/
def mergeExampleFile : Values := [("b", .num 3), ("c", .num 4)]

/-- The expected merge result `{a:1, b:2, c:4}` of the spec's example. -/
def mergeExampleExpected : Values := [("a", .num 1), ("b", .num 2), ("c", .num 4)]

/-- A demonstration template engine: the content `"BADTPL"` has invalid
template syntax, `"BADEXEC"` fails during execution after writing
`"par"`, and any other content renders to itself. -/
def demoEng : TemplateEngine :=
  ⟨fun c _ =>
    if c = "BADTPL" then .parseError
    else if c = "BADEXEC" then .execError "par"
    else .ok c⟩

/-- A demonstration network: one URL serves a well-formed body, one
serves a body with invalid template syntax, everything else fails. -/
def demoEnv : Env :=
  ⟨fun u =>
    if u = "http://x/y" then some ⟨200, "BODY"⟩
    else if u = "http://x/bad" then some ⟨200, "BADTPL"⟩
    else none⟩

/-- A FileSpec with no populated source variant. -/
def noSourceFile : FileStructure :=
  { filename := ["docs", "r.md"], sourceFile := [], sourceURL := "", content := "", values := [] }

/-! ## C2: value-merge precedence -/

/-- **C2**: `mergeValues` maps each key present in the group-level map
to its group-level value, each key present only in the file-level map
to its file-level value, and contains no other keys; a nil/missing map
behaves as the empty map, and on the spec's example
`merge({a:1,b:2}, {b:3,c:4})` agrees with `{a:1,b:2,c:4}` at every key. -/
theorem claim_C2_merge_precedence (groupValues fileValues : Values)
    (hg : (groupValues.map Prod.fst).Nodup)
    (hf : (fileValues.map Prod.fst).Nodup) :
    (∀ k v, mapGet groupValues k = some v →
      mapGet (mergeValues groupValues fileValues) k = some v) ∧
    (∀ k v, mapGet groupValues k = none → mapGet fileValues k = some v →
      mapGet (mergeValues groupValues fileValues) k = some v) ∧
    (∀ k, mapGet groupValues k = none → mapGet fileValues k = none →
      mapGet (mergeValues groupValues fileValues) k = none) ∧
    (∀ k, mapGet (mergeValues [] fileValues) k = mapGet fileValues k) ∧
    (∀ k, mapGet (mergeValues mergeExampleGroup mergeExampleFile) k =
      mapGet mergeExampleExpected k) := by
  refine ⟨?_, ?_, ?_, ?_, ?_⟩
  · intro k v h
    rw [mergeValues_mapGet _ _ _ hg hf, h]
    rfl
  · intro k v hgk hfk
    rw [mergeValues_mapGet _ _ _ hg hf, hgk, hfk]
    rfl
  · intro k hgk hfk
    rw [mergeValues_mapGet _ _ _ hg hf, hgk, hfk]
    rfl
  · intro k
    rw [mergeValues_mapGet _ _ _ (by simp) hf]
    rfl
  · intro k
    rw [mergeValues_mapGet _ _ _ (by decide) (by decide)]
    simp only [mergeExampleGroup, mergeExampleFile, mergeExampleExpected, mapGet]
    split_ifs <;> simp_all

/-- Witness for C2 at the spec's own example. -/
theorem claim_C2_merge_precedence_witness :
    mapGet (mergeValues mergeExampleGroup mergeExampleFile) "b" = some (Value.num 2) ∧
    mapGet (mergeValues mergeExampleGroup mergeExampleFile) "c" = some (Value.num 4) :=
  ⟨(claim_C2_merge_precedence mergeExampleGroup mergeExampleFile
      (by decide) (by decide)).1 "b" (Value.num 2) (by decide),
   (claim_C2_merge_precedence mergeExampleGroup mergeExampleFile
      (by decide) (by decide)).2.1 "c" (Value.num 4) (by decide) (by decide)⟩

/-! ## C8: a FileSpec with no populated source -/

/-- **C8 (counterexample)**: materializing a FileSpec with no populated
source variant returns success and writes no file, but it is not true
that nothing is materialized on disk: the filename's parent directory
is created (`MkdirAll` runs before source selection), so the on-disk
state changes. -/
theorem claim_C8_counterexample :
    (createFileFromTemplate demoEnv demoEng "repo" noSourceFile ["out"] FS.empty).2
        = .ok () ∧
    (createFileFromTemplate demoEnv demoEng "repo" noSourceFile ["out"] FS.empty).1.files
        = [] ∧
    ["out", "repo", "docs"] ∈
      (createFileFromTemplate demoEnv demoEng "repo" noSourceFile ["out"] FS.empty).1.dirs ∧
    ["out", "repo", "docs"] ∉ FS.empty.dirs := by
  refine ⟨rfl, rfl, by decide, by decide⟩

/-- **C8 (amended)**: for every FileSpec with no populated source
variant, materialization returns success and leaves the file map
untouched (no file is written); its only effect is creating the
destination directory. -/
theorem claim_C8_no_source_noop (env : Env) (eng : TemplateEngine)
    (repoName : String) (file : FileStructure) (outputPath : Path) (fs : FS)
    (hc : file.content = "") (hu : file.sourceURL = "") (hs : file.sourceFile = []) :
    createFileFromTemplate env eng repoName file outputPath fs =
      (fs.mkdirAll (pathJoin (pathJoin outputPath [repoName]) (pathDir file.filename)),
        .ok ()) ∧
    (createFileFromTemplate env eng repoName file outputPath fs).1.files = fs.files := by
  constructor
  · simp [createFileFromTemplate, hc, hu, hs]
  · simp [createFileFromTemplate, hc, hu, hs, FS.mkdirAll]

/-- Witness for the amended C8 on a concrete empty FileSpec. -/
theorem claim_C8_no_source_noop_witness :
    createFileFromTemplate demoEnv demoEng "repo" noSourceFile ["out"] FS.empty =
      (FS.empty.mkdirAll (pathJoin (pathJoin ["out"] ["repo"]) (pathDir noSourceFile.filename)),
        .ok ()) :=
  (claim_C8_no_source_noop demoEnv demoEng "repo" noSourceFile ["out"] FS.empty
    rfl rfl rfl).1

/-! ## Basic state-component lemmas -/

@[simp] theorem FS.createFile_trace (fs : FS) (p : Path) :
    (fs.createFile p).trace = fs.trace := rfl

@[simp] theorem FS.setFile_trace (fs : FS) (p : Path) (s : String) :
    (fs.setFile p s).trace = fs.trace := rfl

@[simp] theorem FS.mkdirAll_trace (fs : FS) (p : Path) :
    (fs.mkdirAll p).trace = fs.trace := rfl

@[simp] theorem FS.log_trace (fs : FS) (e : Event) :
    (fs.log e).trace = fs.trace ++ [e] := rfl

@[simp] theorem FS.mkdirAll_files (fs : FS) (p : Path) :
    (fs.mkdirAll p).files = fs.files := rfl

@[simp] theorem FS.log_files (fs : FS) (e : Event) :
    (fs.log e).files = fs.files := rfl

@[simp] theorem FS.createFile_files (fs : FS) (p : Path) :
    (fs.createFile p).files = mapSet fs.files p "" := rfl

@[simp] theorem FS.setFile_files (fs : FS) (p : Path) (s : String) :
    (fs.setFile p s).files = mapSet fs.files p s := rfl

@[simp] theorem FS.createFile_dirs (fs : FS) (p : Path) :
    (fs.createFile p).dirs = fs.dirs := rfl

@[simp] theorem FS.setFile_dirs (fs : FS) (p : Path) (s : String) :
    (fs.setFile p s).dirs = fs.dirs := rfl

@[simp] theorem FS.log_dirs (fs : FS) (e : Event) :
    (fs.log e).dirs = fs.dirs := rfl

/-- `createTemplatedFile` performs no external read or fetch. -/
theorem createTemplatedFile_trace (eng : TemplateEngine) (fs : FS) (p : Path)
    (content : String) (values : Values) :
    (createTemplatedFile eng fs p content values).1.trace = fs.trace := by
  unfold createTemplatedFile
  cases eng.render content values <;> simp

/-- `createTemplatedFile` leaves the directory set unchanged. -/
theorem createTemplatedFile_dirs (eng : TemplateEngine) (fs : FS) (p : Path)
    (content : String) (values : Values) :
    (createTemplatedFile eng fs p content values).1.dirs = fs.dirs := by
  unfold createTemplatedFile
  cases eng.render content values <;> simp

/-- `downloadFileContent` records exactly one fetch event. -/
theorem downloadFileContent_trace (env : Env) (fs : FS) (u : String) :
    (downloadFileContent env fs u).1.trace = fs.trace ++ [Event.fetch u] := by
  unfold downloadFileContent
  cases env.net u with
  | none => simp
  | some resp =>
      by_cases h : resp.status ≥ 400 <;> simp [h]

/-- The destination path `fullPath` computed by `createFileFromTemplate`:
`outputPath/repoName/Dir(filename)/Base(filename)`. -/
def fullOutputPath (outputPath : Path) (repoName : String)
    (file : FileStructure) : Path :=
  pathJoin (pathJoin (pathJoin outputPath [repoName]) (pathDir file.filename))
    (pathBase file.filename)

/-! ## C10: inline rendering failure truncates the destination first -/

/-- **C10**: when an `InlineContent` FileSpec's rendering fails, the
destination file has already been created and truncated before the
error is returned — after a parse error its content is empty, after an
execution error it is the engine's partial output — so a pre-existing
file at that path is never left intact. -/
theorem claim_C10_inline_failure_truncates (env : Env) (eng : TemplateEngine)
    (repoName : String) (file : FileStructure) (outputPath : Path) (fs : FS)
    (hc : file.content ≠ "") :
    (eng.render file.content file.values = .parseError →
      (createFileFromTemplate env eng repoName file outputPath fs).2 = .error .parseErr ∧
      mapGet (createFileFromTemplate env eng repoName file outputPath fs).1.files
        (fullOutputPath outputPath repoName file) = some "") ∧
    (∀ partOut, eng.render file.content file.values = .execError partOut →
      (createFileFromTemplate env eng repoName file outputPath fs).2 = .error .execErr ∧
      mapGet (createFileFromTemplate env eng repoName file outputPath fs).1.files
        (fullOutputPath outputPath repoName file) = some partOut) := by
  constructor
  · intro hr
    simp only [createFileFromTemplate, if_pos hc, createTemplatedFile, hr,
      fullOutputPath]
    simp [mapGet_mapSet_self]
  · intro partOut hr
    simp only [createFileFromTemplate, if_pos hc, createTemplatedFile, hr,
      fullOutputPath]
    simp [mapGet_mapSet_self]

/-- Witness for C10: a concrete inline FileSpec whose content fails to
parse ends with an empty (truncated) destination file and an error,
and one that fails during execution ends with the partial output. -/
theorem claim_C10_inline_failure_truncates_witness :
    ((createFileFromTemplate demoEnv demoEng "repo"
        { filename := ["f.txt"], sourceFile := [], sourceURL := "",
          content := "BADTPL", values := [] } ["out"]
        ⟨[(["out", "repo", "f.txt"], "old")], [], []⟩).2 = .error .parseErr ∧
      mapGet (createFileFromTemplate demoEnv demoEng "repo"
        { filename := ["f.txt"], sourceFile := [], sourceURL := "",
          content := "BADTPL", values := [] } ["out"]
        ⟨[(["out", "repo", "f.txt"], "old")], [], []⟩).1.files
        (fullOutputPath ["out"] "repo"
          { filename := ["f.txt"], sourceFile := [], sourceURL := "",
            content := "BADTPL", values := [] }) = some "") ∧
    ((createFileFromTemplate demoEnv demoEng "repo"
        { filename := ["f.txt"], sourceFile := [], sourceURL := "",
          content := "BADEXEC", values := [] } ["out"]
        ⟨[(["out", "repo", "f.txt"], "old")], [], []⟩).2 = .error .execErr ∧
      mapGet (createFileFromTemplate demoEnv demoEng "repo"
        { filename := ["f.txt"], sourceFile := [], sourceURL := "",
          content := "BADEXEC", values := [] } ["out"]
        ⟨[(["out", "repo", "f.txt"], "old")], [], []⟩).1.files
        (fullOutputPath ["out"] "repo"
          { filename := ["f.txt"], sourceFile := [], sourceURL := "",
            content := "BADEXEC", values := [] }) = some "par") :=
  ⟨(claim_C10_inline_failure_truncates demoEnv demoEng "repo" _ ["out"] _
      (by decide)).1 (by decide),
   (claim_C10_inline_failure_truncates demoEnv demoEng "repo" _ ["out"] _
      (by decide)).2 "par" (by decide)⟩

/-! ## C9: source-selection priority -/

/-- **C9**: source selection is by fixed priority — a non-empty
`InlineContent` wins (the materializer behaves exactly as rendering the
inline content, and no fetch or file read is performed); with inline
content empty, a non-empty `RemoteURL` wins and the local file is never
read (the only external effect is the one fetch).  A field equal to the
empty string counts as unpopulated. -/
theorem claim_C9_source_priority (env : Env) (eng : TemplateEngine)
    (repoName : String) (file : FileStructure) (outputPath : Path) (fs : FS) :
    (file.content ≠ "" →
      createFileFromTemplate env eng repoName file outputPath fs =
        createTemplatedFile eng
          (fs.mkdirAll (pathJoin (pathJoin outputPath [repoName]) (pathDir file.filename)))
          (fullOutputPath outputPath repoName file) file.content file.values ∧
      (createFileFromTemplate env eng repoName file outputPath fs).1.trace = fs.trace) ∧
    (file.content = "" → file.sourceURL ≠ "" →
      (createFileFromTemplate env eng repoName file outputPath fs).1.trace =
        fs.trace ++ [Event.fetch file.sourceURL]) := by
  constructor
  · intro hc
    constructor
    · simp only [createFileFromTemplate, if_pos hc, fullOutputPath]
    · simp only [createFileFromTemplate, if_pos hc]
      rw [createTemplatedFile_trace]
      simp
  · intro hc hu
    simp only [createFileFromTemplate, hc, if_pos hu]
    simp only [ne_eq, not_true_eq_false, if_false]
    rcases hdl : downloadFileContent env
        (fs.mkdirAll (pathJoin (pathJoin outputPath [repoName]) (pathDir file.filename)))
        file.sourceURL with ⟨fs1, r⟩
    have ht1 : fs1.trace = fs.trace ++ [Event.fetch file.sourceURL] := by
      have h := downloadFileContent_trace env
        (fs.mkdirAll (pathJoin (pathJoin outputPath [repoName]) (pathDir file.filename)))
        file.sourceURL
      rw [hdl] at h
      simpa using h
    cases r with
    | error e => simpa using ht1
    | ok content =>
        rcases hct : createTemplatedFile eng fs1
            (pathJoin (pathJoin (pathJoin outputPath [repoName]) (pathDir file.filename))
              (pathBase file.filename)) content file.values with ⟨fs2, r2⟩
        have ht2 : fs2.trace = fs1.trace := by
          have h := createTemplatedFile_trace eng fs1
            (pathJoin (pathJoin (pathJoin outputPath [repoName]) (pathDir file.filename))
              (pathBase file.filename)) content file.values
          rw [hct] at h
          simpa using h
        cases r2 with
        | error e =>
            dsimp only
            rw [hct]
            simp [copyContentToFile, ht2, ht1]
        | ok u =>
            dsimp only
            rw [hct]
            simpa [ht2] using ht1

/-- Witness for C9: a FileSpec with all three variants populated is
rendered from its inline content with no external effect, and one with
URL and local file populated performs exactly the fetch. -/
theorem claim_C9_source_priority_witness :
    (createFileFromTemplate demoEnv demoEng "repo"
        { filename := ["f.txt"], sourceFile := ["templates", "t"],
          sourceURL := "http://x/y", content := "hello", values := [] }
        ["out"] FS.empty).1.trace = FS.empty.trace ∧
    (createFileFromTemplate demoEnv demoEng "repo"
        { filename := ["f.txt"], sourceFile := ["templates", "t"],
          sourceURL := "http://x/y", content := "", values := [] }
        ["out"] FS.empty).1.trace = FS.empty.trace ++ [Event.fetch "http://x/y"] :=
  ⟨((claim_C9_source_priority demoEnv demoEng "repo" _ ["out"] FS.empty).1
      (by decide)).2,
   (claim_C9_source_priority demoEnv demoEng "repo" _ ["out"] FS.empty).2
      rfl (by decide)⟩

/-! ## C1: fallback-to-raw-copy policy -/

/-- A FileSpec whose `LocalFile` source path coincides with its own
destination path `out/repo/f.txt`. -/
def aliasFile : FileStructure :=
  { filename := ["f.txt"], sourceFile := ["out", "repo", "f.txt"], sourceURL := "",
    content := "", values := [] }

/-- A filesystem holding invalid template syntax at that path. -/
def aliasFS : FS := ⟨[(["out", "repo", "f.txt"], "BADTPL")], [], []⟩

/-- **C1 (counterexample)**: the verbatim-fallback claim fails when a
`LocalFile` source path equals the destination path: the source holds
invalid template syntax, materialization succeeds, but the file ends
empty — `os.Create` truncates the destination before `copyFile`
re-reads the (now empty) source — so the written bytes are not
byte-identical to the original source content. -/
theorem claim_C1_counterexample :
    aliasFile.sourceFile = fullOutputPath ["out"] "repo" aliasFile ∧
    mapGet aliasFS.files aliasFile.sourceFile = some "BADTPL" ∧
    demoEng.render "BADTPL" aliasFile.values = .parseError ∧
    (createFileFromTemplate demoEnv demoEng "repo" aliasFile ["out"] aliasFS).2
      = .ok () ∧
    mapGet (createFileFromTemplate demoEnv demoEng "repo" aliasFile ["out"]
        aliasFS).1.files (fullOutputPath ["out"] "repo" aliasFile) = some "" ∧
    ("" : String) ≠ "BADTPL" := by
  refine ⟨rfl, rfl, rfl, by decide, by decide, by decide⟩

/-- **C1 (amended)**: when the resolved raw content fails to parse as a
template, a `RemoteURL` source, and a `LocalFile` source whose stored
path differs from the destination path, are written verbatim
(byte-identical to the fetched body resp. the source file's content)
and materialization succeeds; a `LocalFile` source whose path equals
the destination path still succeeds but writes the empty string (the
destination is truncated by `os.Create` before the fallback copy
re-reads it); the same parse failure on an `InlineContent` source is
returned as an error, which stops the repository's file loop at that
file. -/
theorem claim_C1_render_fallback (env : Env) (eng : TemplateEngine)
    (repoName : String) (file : FileStructure) (outputPath : Path) (fs : FS) :
    (∀ rest, file.content ≠ "" →
      eng.render file.content file.values = .parseError →
      (createFileFromTemplate env eng repoName file outputPath fs).2 = .error .parseErr ∧
      processFileList env eng repoName (file :: rest) outputPath fs =
        ((createFileFromTemplate env eng repoName file outputPath fs).1,
          .error .parseErr)) ∧
    (∀ resp, file.content = "" → file.sourceURL ≠ "" →
      env.net file.sourceURL = some resp → resp.status < 400 →
      eng.render resp.body file.values = .parseError →
      (createFileFromTemplate env eng repoName file outputPath fs).2 = .ok () ∧
      mapGet (createFileFromTemplate env eng repoName file outputPath fs).1.files
        (fullOutputPath outputPath repoName file) = some resp.body) ∧
    (∀ content, file.content = "" → file.sourceURL = "" → file.sourceFile ≠ [] →
      file.sourceFile ≠ fullOutputPath outputPath repoName file →
      mapGet fs.files file.sourceFile = some content →
      eng.render content file.values = .parseError →
      (createFileFromTemplate env eng repoName file outputPath fs).2 = .ok () ∧
      mapGet (createFileFromTemplate env eng repoName file outputPath fs).1.files
        (fullOutputPath outputPath repoName file) = some content) ∧
    (∀ content, file.content = "" → file.sourceURL = "" → file.sourceFile ≠ [] →
      file.sourceFile = fullOutputPath outputPath repoName file →
      mapGet fs.files file.sourceFile = some content →
      eng.render content file.values = .parseError →
      (createFileFromTemplate env eng repoName file outputPath fs).2 = .ok () ∧
      mapGet (createFileFromTemplate env eng repoName file outputPath fs).1.files
        (fullOutputPath outputPath repoName file) = some "") := by
  refine ⟨?_, ?_, ?_, ?_⟩
  · intro rest hc hr
    have hmain : (createFileFromTemplate env eng repoName file outputPath fs).2 =
        .error .parseErr := by
      simp only [createFileFromTemplate, if_pos hc, createTemplatedFile, hr]
    refine ⟨hmain, ?_⟩
    simp only [processFileList]
    rcases hcf : createFileFromTemplate env eng repoName file outputPath fs with ⟨fs1, r⟩
    rw [hcf] at hmain
    cases r with
    | error e =>
        simp at hmain
        simp [hmain]
    | ok u => simp at hmain
  · intro resp hc hu hnet hstat hr
    have h40 : ¬ (resp.status ≥ 400) := by omega
    simp only [createFileFromTemplate, hc, if_pos hu, downloadFileContent, hnet,
      if_neg h40, createTemplatedFile, hr, copyContentToFile, ne_eq,
      not_true_eq_false, if_false, fullOutputPath]
    simp [mapGet_mapSet_self]
  · intro content hc hu hs hne hget hr
    have hfp : fullOutputPath outputPath repoName file =
        pathJoin (pathJoin (pathJoin outputPath [repoName]) (pathDir file.filename))
          (pathBase file.filename) := rfl
    have hne2 : pathJoin (pathJoin (pathJoin outputPath [repoName]) (pathDir file.filename))
        (pathBase file.filename) ≠ file.sourceFile := by
      intro h
      exact hne (by rw [hfp, h])
    simp only [createFileFromTemplate, hc, hu, if_pos hs, ne_eq, not_true_eq_false,
      if_false, not_false_eq_true]
    have hread : readSourceFile
        (fs.mkdirAll (pathJoin (pathJoin outputPath [repoName]) (pathDir file.filename)))
        file.sourceFile =
        ((fs.mkdirAll (pathJoin (pathJoin outputPath [repoName]) (pathDir file.filename))).log
          (.readFile file.sourceFile), .ok content) := by
      simp [readSourceFile, hget]
    rw [hread]
    dsimp only
    have hct : createTemplatedFile eng
        ((fs.mkdirAll (pathJoin (pathJoin outputPath [repoName]) (pathDir file.filename))).log
          (.readFile file.sourceFile))
        (pathJoin (pathJoin (pathJoin outputPath [repoName]) (pathDir file.filename))
          (pathBase file.filename)) content file.values =
        ((((fs.mkdirAll (pathJoin (pathJoin outputPath [repoName]) (pathDir file.filename))).log
            (.readFile file.sourceFile)).createFile
          (pathJoin (pathJoin (pathJoin outputPath [repoName]) (pathDir file.filename))
            (pathBase file.filename))), .error .parseErr) := by
      simp [createTemplatedFile, hr]
    rw [hct]
    dsimp only
    have hread2 : mapGet
        ((((fs.mkdirAll (pathJoin (pathJoin outputPath [repoName]) (pathDir file.filename))).log
            (.readFile file.sourceFile)).createFile
          (pathJoin (pathJoin (pathJoin outputPath [repoName]) (pathDir file.filename))
            (pathBase file.filename))).log (.readFile file.sourceFile)).files
        file.sourceFile = some content := by
      simp only [FS.log_files, FS.createFile_files, FS.mkdirAll_files]
      rw [mapGet_mapSet_ne _ _ _ _ hne2]
      exact hget
    simp only [copyFile, readSourceFile, hread2]
    simp [hfp, mapGet_mapSet_self]
  · intro content hc hu hs heq hget hr
    have hfp : fullOutputPath outputPath repoName file =
        pathJoin (pathJoin (pathJoin outputPath [repoName]) (pathDir file.filename))
          (pathBase file.filename) := rfl
    simp only [createFileFromTemplate, hc, hu, if_pos hs, ne_eq, not_true_eq_false,
      if_false, not_false_eq_true]
    have hread : readSourceFile
        (fs.mkdirAll (pathJoin (pathJoin outputPath [repoName]) (pathDir file.filename)))
        file.sourceFile =
        ((fs.mkdirAll (pathJoin (pathJoin outputPath [repoName]) (pathDir file.filename))).log
          (.readFile file.sourceFile), .ok content) := by
      simp [readSourceFile, hget]
    rw [hread]
    dsimp only
    have hct : createTemplatedFile eng
        ((fs.mkdirAll (pathJoin (pathJoin outputPath [repoName]) (pathDir file.filename))).log
          (.readFile file.sourceFile))
        (pathJoin (pathJoin (pathJoin outputPath [repoName]) (pathDir file.filename))
          (pathBase file.filename)) content file.values =
        ((((fs.mkdirAll (pathJoin (pathJoin outputPath [repoName]) (pathDir file.filename))).log
            (.readFile file.sourceFile)).createFile
          (pathJoin (pathJoin (pathJoin outputPath [repoName]) (pathDir file.filename))
            (pathBase file.filename))), .error .parseErr) := by
      simp [createTemplatedFile, hr]
    rw [hct]
    dsimp only
    have hread2 : mapGet
        ((((fs.mkdirAll (pathJoin (pathJoin outputPath [repoName]) (pathDir file.filename))).log
            (.readFile file.sourceFile)).createFile
          (pathJoin (pathJoin (pathJoin outputPath [repoName]) (pathDir file.filename))
            (pathBase file.filename))).log (.readFile file.sourceFile)).files
        file.sourceFile = some "" := by
      simp only [FS.log_files, FS.createFile_files, FS.mkdirAll_files]
      rw [heq, hfp]
      exact mapGet_mapSet_self _ _ _
    simp only [copyFile, readSourceFile, hread2]
    simp [hfp, mapGet_mapSet_self]

/-- Witness for C1: concrete URL, local-file and inline sources whose
content has invalid template syntax: the first two are written verbatim
with success, the inline one errors and stops the file loop, and the
self-aliasing local file succeeds with an emptied destination. -/
theorem claim_C1_render_fallback_witness :
    ((createFileFromTemplate demoEnv demoEng "repo"
        { filename := ["f.txt"], sourceFile := [], sourceURL := "http://x/bad",
          content := "", values := [] } ["out"] FS.empty).2 = .ok () ∧
      mapGet (createFileFromTemplate demoEnv demoEng "repo"
        { filename := ["f.txt"], sourceFile := [], sourceURL := "http://x/bad",
          content := "", values := [] } ["out"] FS.empty).1.files
        (fullOutputPath ["out"] "repo"
          { filename := ["f.txt"], sourceFile := [], sourceURL := "http://x/bad",
            content := "", values := [] }) = some "BADTPL") ∧
    ((createFileFromTemplate demoEnv demoEng "repo"
        { filename := ["f.txt"], sourceFile := ["templates", "t"], sourceURL := "",
          content := "", values := [] } ["out"]
        ⟨[(["templates", "t"], "BADTPL")], [], []⟩).2 = .ok () ∧
      mapGet (createFileFromTemplate demoEnv demoEng "repo"
        { filename := ["f.txt"], sourceFile := ["templates", "t"], sourceURL := "",
          content := "", values := [] } ["out"]
        ⟨[(["templates", "t"], "BADTPL")], [], []⟩).1.files
        (fullOutputPath ["out"] "repo"
          { filename := ["f.txt"], sourceFile := ["templates", "t"], sourceURL := "",
            content := "", values := [] }) = some "BADTPL") ∧
    (createFileFromTemplate demoEnv demoEng "repo"
        { filename := ["f.txt"], sourceFile := [], sourceURL := "",
          content := "BADTPL", values := [] } ["out"] FS.empty).2 = .error .parseErr ∧
    ((createFileFromTemplate demoEnv demoEng "repo" aliasFile ["out"] aliasFS).2
        = .ok () ∧
      mapGet (createFileFromTemplate demoEnv demoEng "repo" aliasFile ["out"]
          aliasFS).1.files (fullOutputPath ["out"] "repo" aliasFile) = some "") :=
  ⟨(claim_C1_render_fallback demoEnv demoEng "repo" _ ["out"] FS.empty).2.1
      ⟨200, "BADTPL"⟩ rfl (by decide) (by decide) (by decide) (by decide),
   (claim_C1_render_fallback demoEnv demoEng "repo" _ ["out"]
      ⟨[(["templates", "t"], "BADTPL")], [], []⟩).2.2.1
      "BADTPL" rfl rfl (by decide) (by decide) (by decide) (by decide),
   ((claim_C1_render_fallback demoEnv demoEng "repo" _ ["out"] FS.empty).1
      [] (by decide) (by decide)).1,
   (claim_C1_render_fallback demoEnv demoEng "repo" aliasFile ["out"] aliasFS).2.2.2
      "BADTPL" rfl rfl (by decide) (by decide) (by decide) (by decide)⟩

/-! ## C3: ConflictingSource validation scope -/

/-- A repository direct file with two source variants populated
(`LocalFile` and `InlineContent`). -/
def conflictDirectFile : FileStructure :=
  { filename := ["f.txt"], sourceFile := ["s.tmpl"], sourceURL := "",
    content := "body", values := [] }

/-- A template-group file with two source variants populated
(`RemoteURL` and `InlineContent`). -/
def conflictGroupFile : FileStructure :=
  { filename := ["gf.txt"], sourceFile := [], sourceURL := "http://x/y",
    content := "body", values := [] }

/-- A configuration containing both files above. -/
def conflictConfig : Config :=
  { templateGroups := [("g", [conflictGroupFile])],
    repositories := [{ name := "r", files := [conflictDirectFile], groups := [] }] }

/-- Lemma: a successful `validateFilesLoop` validated every file. -/
theorem validateFilesLoop_ok (world : FS) (files : List FileStructure)
    (h : validateFilesLoop world files = .ok ()) :
    ∀ file ∈ files, validateOneFileStructure world file = .ok () := by
  induction files with
  | nil => intro f hf; cases hf
  | cons file rest ih =>
      intro f hf
      rw [validateFilesLoop] at h
      rcases hv : validateOneFileStructure world file with e | u
      · rw [hv] at h; cases h
      · rw [hv] at h
        rcases List.mem_cons.mp hf with rfl | hf2
        · cases u; exact hv
        · exact ih h f hf2

/-- Lemma: a successful `validateFileStructures` validated every file of
every template group. -/
theorem validateFileStructures_ok (groups : List (String × List FileStructure))
    (world : FS) (h : validateFileStructures groups world = .ok ()) :
    ∀ entry ∈ groups, ∀ file ∈ entry.2,
      validateOneFileStructure world file = .ok () := by
  induction groups with
  | nil => intro g hg; cases hg
  | cons entry rest ih =>
      intro g hg file hf
      obtain ⟨name, files⟩ := entry
      rw [validateFileStructures] at h
      rcases hv : validateFilesLoop world files with e | u
      · rw [hv] at h; cases h
      · rw [hv] at h
        rcases List.mem_cons.mp hg with rfl | hg2
        · exact validateFilesLoop_ok world files hv file hf
        · exact ih h g hg2 file hf

/-- **C3 (counterexample)**: `conflictDirectFile` sits in a repository's
direct file list with both `LocalFile` and `InlineContent` populated,
and `conflictGroupFile` sits in a template group with both `RemoteURL`
and `InlineContent` populated, yet validation succeeds. -/
theorem claim_C3_counterexample :
    conflictDirectFile.sourceFile ≠ [] ∧ conflictDirectFile.content ≠ "" ∧
    conflictConfig.repositories =
      [{ name := "r", files := [conflictDirectFile], groups := [] }] ∧
    conflictGroupFile.sourceURL ≠ "" ∧ conflictGroupFile.content ≠ "" ∧
    mapGet conflictConfig.templateGroups "g" = some [conflictGroupFile] ∧
    validateConfig conflictConfig FS.empty (fun _ => true) = .ok () := by
  refine ⟨by decide, by decide, rfl, by decide, by decide, by decide, by decide⟩

/-- **C3 (amended)**: the `ConflictingSource` check covers exactly the
`LocalFile`+`InlineContent` combination on template-group FileSpecs: if
validation of the template groups succeeds then no group FileSpec has
both `sourceFile` and `content` populated, and a group FileSpec with
both populated is rejected with `ConflictingSource`.  (Repository
direct files and combinations involving `RemoteURL` are not checked,
as the counterexample shows.) -/
theorem claim_C3_conflicting_source :
    (∀ (groups : List (String × List FileStructure)) (world : FS),
      validateFileStructures groups world = .ok () →
      ∀ entry ∈ groups, ∀ file ∈ entry.2,
        ¬ (file.sourceFile ≠ [] ∧ file.content ≠ "")) ∧
    (∀ (name : String) (world : FS) (file : FileStructure),
      file.sourceFile ≠ [] → file.content ≠ "" →
      validateFileStructures [(name, [file])] world =
        .error (.conflictingSource file.filename)) := by
  constructor
  · intro groups world h entry hg file hf hc
    have h1 := validateFileStructures_ok groups world h entry hg file hf
    rw [validateOneFileStructure, if_pos hc] at h1
    cases h1
  · intro name world file hs hc
    rw [validateFileStructures, validateFilesLoop, validateOneFileStructure,
      if_pos ⟨hs, hc⟩]

/-- Witness for the amended C3: a conflict-free group passes and keeps
no conflicting file; a conflicting group file is rejected. -/
theorem claim_C3_conflicting_source_witness :
    ¬ (noSourceFile.sourceFile ≠ [] ∧ noSourceFile.content ≠ "") ∧
    validateFileStructures [("g", [conflictDirectFile])] FS.empty =
      .error (.conflictingSource ["f.txt"]) :=
  ⟨claim_C3_conflicting_source.1 [("g", [noSourceFile])] FS.empty (by decide)
      ("g", [noSourceFile]) (by decide) noSourceFile (by decide),
   claim_C3_conflicting_source.2 "g" FS.empty conflictDirectFile
      (by decide) (by decide)⟩

/-! ## C4: InvalidURL validation scope -/

/-- A repository direct file with a `RemoteURL` source. -/
def badURLDirectFile : FileStructure :=
  { filename := ["f.txt"], sourceFile := [], sourceURL := "notaurl",
    content := "", values := [] }

/-- A configuration whose only `RemoteURL` sits in a repository's
direct file list. -/
def badURLConfig : Config :=
  { templateGroups := [],
    repositories := [{ name := "r", files := [badURLDirectFile], groups := [] }] }

/-- Lemma: a successful `validateURLsLoop` validated every URL. -/
theorem validateURLsLoop_ok (validURL : String → Bool)
    (files : List FileStructure) (h : validateURLsLoop validURL files = .ok ()) :
    ∀ file ∈ files, file.sourceURL ≠ "" → validURL file.sourceURL = true := by
  induction files with
  | nil => intro f hf; cases hf
  | cons file rest ih =>
      intro f hf hu
      rw [validateURLsLoop] at h
      by_cases hcond : file.sourceURL ≠ "" ∧ validURL file.sourceURL = false
      · rw [if_pos hcond] at h; cases h
      · rw [if_neg hcond] at h
        rcases List.mem_cons.mp hf with rfl | hf2
        · push_neg at hcond
          have := hcond hu
          simpa using this
        · exact ih h f hf2 hu

/-- **C4 (counterexample)**: the only `RemoteURL` of `badURLConfig` is
on a repository direct file; even when the URL parser rejects every
string, validation succeeds. -/
theorem claim_C4_counterexample :
    badURLDirectFile.sourceURL ≠ "" ∧
    badURLConfig.repositories =
      [{ name := "r", files := [badURLDirectFile], groups := [] }] ∧
    validateConfig badURLConfig FS.empty (fun _ => false) = .ok () := by
  refine ⟨by decide, rfl, by decide⟩

/-- **C4 (amended)**: the URL check covers exactly the template-group
FileSpecs: if URL validation succeeds then every group FileSpec with a
non-empty `sourceURL` parses as valid, and a group FileSpec whose
`sourceURL` fails to parse is rejected with `InvalidURL`.  (Repository
direct files are not checked, as the counterexample shows.) -/
theorem claim_C4_invalid_url :
    (∀ (groups : List (String × List FileStructure)) (validURL : String → Bool),
      validateURLSchemes groups validURL = .ok () →
      ∀ entry ∈ groups, ∀ file ∈ entry.2, file.sourceURL ≠ "" →
        validURL file.sourceURL = true) ∧
    (∀ (name : String) (validURL : String → Bool) (file : FileStructure),
      file.sourceURL ≠ "" → validURL file.sourceURL = false →
      validateURLSchemes [(name, [file])] validURL =
        .error (.invalidURL file.sourceURL)) := by
  constructor
  · intro groups validURL h entry hg file hf hu
    induction groups with
    | nil => cases hg
    | cons e rest ih =>
        obtain ⟨name, files⟩ := e
        rw [validateURLSchemes] at h
        rcases hv : validateURLsLoop validURL files with er | u
        · rw [hv] at h; cases h
        · rw [hv] at h
          rcases List.mem_cons.mp hg with rfl | hg2
          · exact validateURLsLoop_ok validURL files hv file hf hu
          · exact ih h hg2
  · intro name validURL file hu hv
    rw [validateURLSchemes, validateURLsLoop, if_pos ⟨hu, hv⟩]

/-- Witness for the amended C4: a group whose file has a parsing URL
passes and that URL is indeed accepted; a group file with a rejected
URL fails with `InvalidURL`. -/
theorem claim_C4_invalid_url_witness :
    (fun u => decide (u = "http://x/y")) conflictGroupFile.sourceURL = true ∧
    validateURLSchemes [("g", [badURLDirectFile])] (fun _ => false) =
      .error (.invalidURL "notaurl") :=
  ⟨claim_C4_invalid_url.1 [("g", [conflictGroupFile])]
      (fun u => decide (u = "http://x/y")) (by decide)
      ("g", [conflictGroupFile]) (by decide) conflictGroupFile (by decide)
      (by decide),
   claim_C4_invalid_url.2 "g" (fun _ => false) badURLDirectFile
      (by decide) (by decide)⟩

/-! ## C5: LocalFile path rewriting at load time -/

/-- A FileSpec with a `LocalFile` source, as it appears pre-rewrite. -/
def localSourceFile : FileStructure :=
  { filename := ["f.txt"], sourceFile := ["t.txt"], sourceURL := "",
    content := "", values := [] }

/-- A configuration whose only `LocalFile` FileSpec is a repository
direct file. -/
def localRepoConfig : Config :=
  { templateGroups := [],
    repositories := [{ name := "r", files := [localSourceFile], groups := [] }] }

/-- A configuration holding the same FileSpec inside a template group. -/
def localGroupConfig : Config :=
  { templateGroups := [("g", [localSourceFile])], repositories := [] }

/-- `readSourceFile` records exactly one read event of the given path. -/
theorem readSourceFile_trace (fs : FS) (p : Path) :
    (readSourceFile fs p).1.trace = fs.trace ++ [Event.readFile p] := by
  unfold readSourceFile
  cases h : mapGet fs.files p <;> simp [h]

/-- **C5 (counterexample)**: configuration loading does not rewrite the
`LocalFile` path of a repository direct file: after the rewrite pass
with templates root `templates`, the direct file's source path is
unchanged, not joined. -/
theorem claim_C5_counterexample :
    localSourceFile.sourceFile = ["t.txt"] ∧
    (readConfigTransform ["templates"] localRepoConfig).repositories =
      [{ name := "r", files := [localSourceFile], groups := [] }] ∧
    localSourceFile.sourceFile ≠ pathJoin ["templates"] localSourceFile.sourceFile := by
  refine ⟨rfl, rfl, by decide⟩

/-- **C5 (amended)**: configuration loading rewrites the `LocalFile`
paths of template-group FileSpecs exactly once (joining each non-empty
source path with the templates root), leaves repository direct files
entirely untouched, and no component re-applies the join later: for a
`LocalFile` materialization every external read event is of exactly the
stored source path. -/
theorem claim_C5_local_path_rewrite :
    (∀ (templatesDir : Path) (config : Config),
      (readConfigTransform templatesDir config).repositories = config.repositories) ∧
    (∀ (templatesDir : Path) (config : Config) (name : String)
        (group : List FileStructure),
      (name, group) ∈ config.templateGroups →
      (name, group.map (fun file =>
        if file.sourceFile ≠ [] then
          { file with sourceFile := pathJoin templatesDir file.sourceFile }
        else file)) ∈ (readConfigTransform templatesDir config).templateGroups) ∧
    (∀ (env : Env) (eng : TemplateEngine) (repoName : String)
        (file : FileStructure) (outputPath : Path) (fs : FS),
      file.content = "" → file.sourceURL = "" → file.sourceFile ≠ [] →
      ∃ k, (createFileFromTemplate env eng repoName file outputPath fs).1.trace =
        fs.trace ++ List.replicate k (Event.readFile file.sourceFile)) := by
  refine ⟨?_, ?_, ?_⟩
  · intro templatesDir config
    rfl
  · intro templatesDir config name group h
    simp only [readConfigTransform]
    exact List.mem_map_of_mem _ h
  · intro env eng repoName file outputPath fs hc hu hs
    simp only [createFileFromTemplate, hc, hu, if_pos hs, ne_eq,
      not_true_eq_false, if_false]
    rcases hrd : readSourceFile
        (fs.mkdirAll (pathJoin (pathJoin outputPath [repoName]) (pathDir file.filename)))
        file.sourceFile with ⟨fs1, r⟩
    have ht1 : fs1.trace = fs.trace ++ [Event.readFile file.sourceFile] := by
      have h := readSourceFile_trace
        (fs.mkdirAll (pathJoin (pathJoin outputPath [repoName]) (pathDir file.filename)))
        file.sourceFile
      rw [hrd] at h
      simpa using h
    cases r with
    | error e =>
        exact ⟨1, by simpa using ht1⟩
    | ok content =>
        dsimp only
        rcases hct : createTemplatedFile eng fs1
            (pathJoin (pathJoin (pathJoin outputPath [repoName]) (pathDir file.filename))
              (pathBase file.filename)) content file.values with ⟨fs2, r2⟩
        have ht2 : fs2.trace = fs1.trace := by
          have h := createTemplatedFile_trace eng fs1
            (pathJoin (pathJoin (pathJoin outputPath [repoName]) (pathDir file.filename))
              (pathBase file.filename)) content file.values
          rw [hct] at h
          simpa using h
        cases r2 with
        | ok u =>
            exact ⟨1, by simp [ht2, ht1]⟩
        | error e =>
            dsimp only [copyFile]
            rcases hrd2 : readSourceFile fs2 file.sourceFile with ⟨fs3, r3⟩
            have ht3 : fs3.trace = fs2.trace ++ [Event.readFile file.sourceFile] := by
              have h := readSourceFile_trace fs2 file.sourceFile
              rw [hrd2] at h
              simpa using h
            cases r3 with
            | error e2 =>
                refine ⟨2, ?_⟩
                simp [ht3, ht2, ht1, List.replicate]
            | ok input =>
                refine ⟨2, ?_⟩
                simp [ht3, ht2, ht1, List.replicate]

/-- The FileSpec of `localGroupConfig` after the load-time rewrite. -/
def localSourceFileJoined : FileStructure :=
  { filename := ["f.txt"], sourceFile := ["templates", "t.txt"], sourceURL := "",
    content := "", values := [] }

/-- Witness for the amended C5: the group FileSpec of
`localGroupConfig` is rewritten to `templates/t.txt`, and a concrete
local-file materialization reads only the stored path. -/
theorem claim_C5_local_path_rewrite_witness :
    ("g", [localSourceFileJoined]) ∈
      (readConfigTransform ["templates"] localGroupConfig).templateGroups ∧
    (∃ k, (createFileFromTemplate demoEnv demoEng "r" localSourceFile ["out"]
        FS.empty).1.trace =
      FS.empty.trace ++ List.replicate k (Event.readFile localSourceFile.sourceFile)) :=
  ⟨claim_C5_local_path_rewrite.2.1 ["templates"] localGroupConfig "g"
      [localSourceFile] (by decide),
   claim_C5_local_path_rewrite.2.2 demoEnv demoEng "r" localSourceFile ["out"]
      FS.empty rfl rfl (by decide)⟩

/-! ## C6: in-order processing, first failure aborts, no rollback -/

/-- Splitting the file loop: processing `xs ++ ys` is processing `xs`
and, if that succeeded, processing `ys` from the resulting state. -/
theorem processFileList_append (env : Env) (eng : TemplateEngine) (n : String)
    (xs ys : List FileStructure) (out : Path) (fs : FS) :
    processFileList env eng n (xs ++ ys) out fs =
      match processFileList env eng n xs out fs with
      | (fs1, .error e) => (fs1, .error e)
      | (fs1, .ok _) => processFileList env eng n ys out fs1 := by
  induction xs generalizing fs with
  | nil => simp [processFileList]
  | cons x rest ih =>
      simp only [List.cons_append, processFileList]
      rcases h : createFileFromTemplate env eng n x out fs with ⟨fs1, r⟩
      cases r with
      | error e => rfl
      | ok u => exact ih fs1

/-- **C6**: after the output-directory reset, the direct files are
materialized in declared order and processing stops at the first
failure: the failing file's error and the state reached at that point
(with all earlier files' writes intact — no rollback) are returned, and
neither the remaining direct files nor any group expansion is
attempted; a failure inside group expansion likewise aborts with the
state reached. -/
theorem claim_C6_first_failure (env : Env) (eng : TemplateEngine)
    (repo : Repository) (globalGroups : List (String × List FileStructure))
    (out : Path) (fs0 fs1 : FS)
    (hdel : deleteExistingDir fs0 (pathJoin out [repo.name]) = (fs1, .ok ())) :
    (∀ xs y ys fs2 fs3 e, repo.files = xs ++ y :: ys →
      processFileList env eng repo.name xs out fs1 = (fs2, .ok ()) →
      createFileFromTemplate env eng repo.name y out fs2 = (fs3, .error e) →
      processRepository env eng repo globalGroups out fs0 = (fs3, .error e)) ∧
    (∀ fs2 fs3 e,
      processFileList env eng repo.name repo.files out fs1 = (fs2, .ok ()) →
      processGroups env eng repo.name repo.groups globalGroups out fs2 =
        (fs3, .error e) →
      processRepository env eng repo globalGroups out fs0 = (fs3, .error e)) := by
  constructor
  · intro xs y ys fs2 fs3 e hfiles hxs hy
    simp only [processRepository]
    rw [hdel]
    dsimp only
    rw [hfiles, processFileList_append, hxs]
    dsimp only
    rw [processFileList, hy]
  · intro fs2 fs3 e hfl hgr
    simp only [processRepository]
    rw [hdel]
    dsimp only
    rw [hfl]
    dsimp only
    rw [hgr]

/-- Witness for C6: a repository whose second file has invalid inline
template syntax ends with that error; the first file's write is present
in the returned state and no later file exists. -/
theorem claim_C6_first_failure_witness :
    processRepository demoEnv demoEng
      { name := "r",
        files := [{ filename := ["a.txt"], sourceFile := [], sourceURL := "",
                    content := "hello", values := [] },
                  { filename := ["b.txt"], sourceFile := [], sourceURL := "",
                    content := "BADTPL", values := [] }],
        groups := [] } [] ["out"] FS.empty =
      (⟨[(["out", "r", "a.txt"], "hello"), (["out", "r", "b.txt"], "")],
        [[], ["out"], ["out", "r"]], []⟩, .error .parseErr) :=
  (claim_C6_first_failure demoEnv demoEng
    { name := "r",
      files := [{ filename := ["a.txt"], sourceFile := [], sourceURL := "",
                  content := "hello", values := [] },
                { filename := ["b.txt"], sourceFile := [], sourceURL := "",
                  content := "BADTPL", values := [] }],
      groups := [] } [] ["out"] FS.empty FS.empty (by decide)).1
    [{ filename := ["a.txt"], sourceFile := [], sourceURL := "",
       content := "hello", values := [] }]
    { filename := ["b.txt"], sourceFile := [], sourceURL := "",
      content := "BADTPL", values := [] } []
    ⟨[(["out", "r", "a.txt"], "hello")], [[], ["out"], ["out", "r"]], []⟩
    ⟨[(["out", "r", "a.txt"], "hello"), (["out", "r", "b.txt"], "")],
      [[], ["out"], ["out", "r"]], []⟩
    .parseErr rfl (by decide) (by decide)

/-! ## C7: the lemma stack for the idempotent directory reset -/

/-- Lookup after filtering out everything under `root` is unchanged for
paths not under `root`. -/
theorem mapGet_filter_not_under (files : List (Path × String)) (root q : Path)
    (h : ¬ root <+: q) :
    mapGet (files.filter (fun e => !(root.isPrefixOf e.1))) q = mapGet files q := by
  induction files with
  | nil => rfl
  | cons e rest ih =>
      obtain ⟨k, v⟩ := e
      by_cases hk : root <+: k
      · have hb : root.isPrefixOf k = true := List.isPrefixOf_iff_prefix.mpr hk
        have hne : k ≠ q := by
          rintro rfl
          exact h hk
        simp [List.filter_cons, hb, mapGet, hne, ih]
      · have hb : root.isPrefixOf k = false := by
          rw [Bool.eq_false_iff]
          intro hx
          exact hk (List.isPrefixOf_iff_prefix.mp hx)
        simp [List.filter_cons, hb, mapGet, ih]

/-- Lookup after filtering out everything under `root` is `none` for
paths under `root`. -/
theorem mapGet_filter_under_none (files : List (Path × String)) (root q : Path)
    (h : root <+: q) :
    mapGet (files.filter (fun e => !(root.isPrefixOf e.1))) q = none := by
  induction files with
  | nil => rfl
  | cons e rest ih =>
      obtain ⟨k, v⟩ := e
      by_cases hk : root <+: k
      · have hb : root.isPrefixOf k = true := List.isPrefixOf_iff_prefix.mpr hk
        simp [List.filter_cons, hb, ih]
      · have hb : root.isPrefixOf k = false := by
          rw [Bool.eq_false_iff]
          intro hx
          exact hk (List.isPrefixOf_iff_prefix.mp hx)
        have hne : k ≠ q := by
          rintro rfl
          exact hk h
        simp [List.filter_cons, hb, mapGet, hne, ih]

/-- If no file of the map lies under `root`, lookup under `root` is
`none`. -/
theorem mapGet_none_of_all_not_under (files : List (Path × String)) (root q : Path)
    (hall : files.all (fun e => !(root.isPrefixOf e.1)) = true) (h : root <+: q) :
    mapGet files q = none := by
  induction files with
  | nil => rfl
  | cons e rest ih =>
      obtain ⟨k, v⟩ := e
      rw [List.all_cons, Bool.and_eq_true] at hall
      have hk : ¬ root <+: k := by
        intro hx
        rw [List.isPrefixOf_iff_prefix.mpr hx] at hall
        simpa using hall.1
      have hne : k ≠ q := by
        rintro rfl
        exact hk h
      simp [mapGet, hne, ih hall.2]

/-- Local wellformedness of a state at a directory `p`: if any file lies
under `p` then `p` itself exists (as a real filesystem guarantees). -/
def FS.dirOK (fs : FS) (p : Path) : Bool :=
  fs.files.all (fun e => !(p.isPrefixOf e.1)) || fs.pathExists p

/-- `deleteExistingDir` always succeeds in the model. -/
theorem deleteExistingDir_snd (fs : FS) (p : Path) :
    (deleteExistingDir fs p).2 = .ok () := by
  unfold deleteExistingDir
  split <;> rfl

/-- `deleteExistingDir` does not touch files outside the subtree. -/
theorem deleteExistingDir_files_outside (fs : FS) (root q : Path)
    (h : ¬ root <+: q) :
    mapGet (deleteExistingDir fs root).1.files q = mapGet fs.files q := by
  unfold deleteExistingDir
  split
  · rfl
  · exact mapGet_filter_not_under fs.files root q h

/-- On a locally wellformed state, `deleteExistingDir` leaves nothing
under the subtree. -/
theorem deleteExistingDir_files_under (fs : FS) (root q : Path)
    (hok : fs.dirOK root = true) (h : root <+: q) :
    mapGet (deleteExistingDir fs root).1.files q = none := by
  unfold deleteExistingDir
  split
  · rename_i hex
    have hall : fs.files.all (fun e => !(root.isPrefixOf e.1)) = true := by
      rw [FS.dirOK, hex] at hok
      simpa using hok
    exact mapGet_none_of_all_not_under fs.files root q hall h
  · exact mapGet_filter_under_none fs.files root q h

/-- `downloadFileContent` leaves the file map unchanged. -/
theorem downloadFileContent_files (env : Env) (fs : FS) (u : String) :
    (downloadFileContent env fs u).1.files = fs.files := by
  unfold downloadFileContent
  cases env.net u with
  | none => rfl
  | some resp =>
      by_cases h : resp.status ≥ 400 <;> simp [h]

/-- `readSourceFile` leaves the file map unchanged. -/
theorem readSourceFile_files (fs : FS) (p : Path) :
    (readSourceFile fs p).1.files = fs.files := by
  unfold readSourceFile
  cases h : mapGet fs.files p <;> simp [h]

/-- `downloadFileContent` leaves the directory set unchanged. -/
theorem downloadFileContent_dirs (env : Env) (fs : FS) (u : String) :
    (downloadFileContent env fs u).1.dirs = fs.dirs := by
  unfold downloadFileContent
  cases env.net u with
  | none => rfl
  | some resp =>
      by_cases h : resp.status ≥ 400 <;> simp [h]

/-- `readSourceFile` leaves the directory set unchanged. -/
theorem readSourceFile_dirs (fs : FS) (p : Path) :
    (readSourceFile fs p).1.dirs = fs.dirs := by
  unfold readSourceFile
  cases h : mapGet fs.files p <;> simp [h]

/-- `createTemplatedFile` changes the file map only at its destination. -/
theorem createTemplatedFile_files_other (eng : TemplateEngine) (fs : FS)
    (path : Path) (content : String) (values : Values) (q : Path) (h : q ≠ path) :
    mapGet (createTemplatedFile eng fs path content values).1.files q =
      mapGet fs.files q := by
  unfold createTemplatedFile
  cases eng.render content values <;>
    simp [mapGet_mapSet_ne _ _ _ _ (Ne.symm h)]

/-- The materializer's destination lies under the repository subtree. -/
theorem repoRoot_prefix_fullPath (out : Path) (n : String) (file : FileStructure) :
    pathJoin out [n] <+:
      pathJoin (pathJoin (pathJoin out [n]) (pathDir file.filename))
        (pathBase file.filename) :=
  ⟨pathDir file.filename ++ pathBase file.filename, by simp [pathJoin]⟩

/-- `createFileFromTemplate` changes no file outside the repository's
output subtree. -/
theorem createFileFromTemplate_files_outside (env : Env) (eng : TemplateEngine)
    (n : String) (file : FileStructure) (out : Path) (fs : FS) (q : Path)
    (h : ¬ pathJoin out [n] <+: q) :
    mapGet (createFileFromTemplate env eng n file out fs).1.files q =
      mapGet fs.files q := by
  have hq : q ≠ pathJoin (pathJoin (pathJoin out [n]) (pathDir file.filename))
      (pathBase file.filename) := by
    rintro rfl
    exact h (repoRoot_prefix_fullPath out n file)
  simp only [createFileFromTemplate]
  by_cases hc : file.content ≠ ""
  · rw [if_pos hc]
    rw [createTemplatedFile_files_other _ _ _ _ _ _ hq]
    simp
  · rw [if_neg hc]
    by_cases hu : file.sourceURL ≠ ""
    · rw [if_pos hu]
      rcases hd : downloadFileContent env
          (fs.mkdirAll (pathJoin (pathJoin out [n]) (pathDir file.filename)))
          file.sourceURL with ⟨fs1, r⟩
      have hf1 : fs1.files = fs.files := by
        have hh := downloadFileContent_files env
          (fs.mkdirAll (pathJoin (pathJoin out [n]) (pathDir file.filename)))
          file.sourceURL
        rw [hd] at hh
        simpa using hh
      cases r with
      | error e =>
          dsimp only
          rw [hf1]
      | ok content =>
          dsimp only
          rcases hct : createTemplatedFile eng fs1
              (pathJoin (pathJoin (pathJoin out [n]) (pathDir file.filename))
                (pathBase file.filename)) content file.values with ⟨fs2, r2⟩
          have hf2 : mapGet fs2.files q = mapGet fs.files q := by
            have hh := createTemplatedFile_files_other eng fs1
              (pathJoin (pathJoin (pathJoin out [n]) (pathDir file.filename))
                (pathBase file.filename)) content file.values q hq
            rw [hct] at hh
            dsimp only at hh
            rw [hh, hf1]
          cases r2 with
          | error e =>
              dsimp only [copyContentToFile]
              simp only [FS.setFile_files]
              rw [mapGet_mapSet_ne _ _ _ _ (Ne.symm hq)]
              exact hf2
          | ok u =>
              dsimp only
              exact hf2
    · rw [if_neg hu]
      by_cases hs : file.sourceFile ≠ []
      · rw [if_pos hs]
        rcases hrs : readSourceFile
            (fs.mkdirAll (pathJoin (pathJoin out [n]) (pathDir file.filename)))
            file.sourceFile with ⟨fs1, r⟩
        have hf1 : fs1.files = fs.files := by
          have hh := readSourceFile_files
            (fs.mkdirAll (pathJoin (pathJoin out [n]) (pathDir file.filename)))
            file.sourceFile
          rw [hrs] at hh
          simpa using hh
        cases r with
        | error e =>
            dsimp only
            rw [hf1]
        | ok content =>
            dsimp only
            rcases hct : createTemplatedFile eng fs1
                (pathJoin (pathJoin (pathJoin out [n]) (pathDir file.filename))
                  (pathBase file.filename)) content file.values with ⟨fs2, r2⟩
            have hf2 : mapGet fs2.files q = mapGet fs.files q := by
              have hh := createTemplatedFile_files_other eng fs1
                (pathJoin (pathJoin (pathJoin out [n]) (pathDir file.filename))
                  (pathBase file.filename)) content file.values q hq
              rw [hct] at hh
              dsimp only at hh
              rw [hh, hf1]
            cases r2 with
            | error e =>
                dsimp only [copyFile]
                rcases hr2 : readSourceFile fs2 file.sourceFile with ⟨fs3, r3⟩
                have hf3 : fs3.files = fs2.files := by
                  have hh := readSourceFile_files fs2 file.sourceFile
                  rw [hr2] at hh
                  simpa using hh
                cases r3 with
                | error e2 =>
                    dsimp only
                    rw [hf3]
                    exact hf2
                | ok input =>
                    dsimp only
                    simp only [FS.setFile_files]
                    rw [mapGet_mapSet_ne _ _ _ _ (Ne.symm hq)]
                    rw [hf3]
                    exact hf2
            | ok u =>
                dsimp only
                exact hf2
      · rw [if_neg hs]
        simp

/-- The file loop changes no file outside the repository's subtree. -/
theorem processFileList_files_outside (env : Env) (eng : TemplateEngine)
    (n : String) (files : List FileStructure) (out : Path) (fs : FS) (q : Path)
    (h : ¬ pathJoin out [n] <+: q) :
    mapGet (processFileList env eng n files out fs).1.files q =
      mapGet fs.files q := by
  induction files generalizing fs with
  | nil => rfl
  | cons file rest ih =>
      rw [processFileList]
      rcases hc : createFileFromTemplate env eng n file out fs with ⟨fs1, r⟩
      have h1 : mapGet fs1.files q = mapGet fs.files q := by
        have hh := createFileFromTemplate_files_outside env eng n file out fs q h
        rw [hc] at hh
        exact hh
      cases r with
      | error e => exact h1
      | ok u => rw [ih fs1, h1]

/-- The group loop changes no file outside the repository's subtree. -/
theorem processGroups_files_outside (env : Env) (eng : TemplateEngine)
    (n : String) (groups : List TemplateGroupRef)
    (gg : List (String × List FileStructure)) (out : Path) (fs : FS) (q : Path)
    (h : ¬ pathJoin out [n] <+: q) :
    mapGet (processGroups env eng n groups gg out fs).1.files q =
      mapGet fs.files q := by
  induction groups generalizing fs with
  | nil => rfl
  | cons groupRef rest ih =>
      rw [processGroups]
      cases mapGet gg groupRef.groupName with
      | none => rfl
      | some group =>
          dsimp only
          rcases hg : generateFilesFromTemplate env eng n
              (group.map (fun file =>
                { file with values := mergeValues groupRef.values file.values }))
              out fs with ⟨fs1, r⟩
          rw [hg]
          have h1 : mapGet fs1.files q = mapGet fs.files q := by
            have hh := processFileList_files_outside env eng n
              (group.map (fun file =>
                { file with values := mergeValues groupRef.values file.values }))
              out fs q h
            rw [show processFileList env eng n
                (group.map (fun file =>
                  { file with values := mergeValues groupRef.values file.values }))
                out fs = (fs1, r) from hg] at hh
            exact hh
          cases r with
          | error e => exact h1
          | ok u =>
              dsimp only
              rw [ih fs1, h1]

/-- `processRepository` unfolded past its always-successful delete. -/
theorem processRepository_eq (env : Env) (eng : TemplateEngine)
    (repo : Repository) (gg : List (String × List FileStructure)) (out : Path)
    (fs : FS) :
    processRepository env eng repo gg out fs =
      match processFileList env eng repo.name repo.files out
          (deleteExistingDir fs (pathJoin out [repo.name])).1 with
      | (fs2, .error e) => (fs2, .error e)
      | (fs2, .ok _) => processGroups env eng repo.name repo.groups gg out fs2 := by
  simp only [processRepository]
  rcases hd : deleteExistingDir fs (pathJoin out [repo.name]) with ⟨fs1, r⟩
  have h2 := deleteExistingDir_snd fs (pathJoin out [repo.name])
  rw [hd] at h2
  dsimp only at h2
  subst h2
  rfl

/-- Repository processing changes no file outside its own subtree. -/
theorem processRepository_files_outside (env : Env) (eng : TemplateEngine)
    (repo : Repository) (gg : List (String × List FileStructure)) (out : Path)
    (fs : FS) (q : Path) (h : ¬ pathJoin out [repo.name] <+: q) :
    mapGet (processRepository env eng repo gg out fs).1.files q =
      mapGet fs.files q := by
  rw [processRepository_eq]
  rcases hfl : processFileList env eng repo.name repo.files out
      (deleteExistingDir fs (pathJoin out [repo.name])).1 with ⟨fs2, r⟩
  have h1 : mapGet fs2.files q = mapGet fs.files q := by
    have hh := processFileList_files_outside env eng repo.name repo.files out
      (deleteExistingDir fs (pathJoin out [repo.name])).1 q h
    rw [hfl] at hh
    rw [hh]
    exact deleteExistingDir_files_outside fs (pathJoin out [repo.name]) q h
  cases r with
  | error e => exact h1
  | ok u =>
      dsimp only
      rw [processGroups_files_outside env eng repo.name repo.groups gg out fs2 q h]
      exact h1

/-- Membership survives the insert-if-absent fold of `mkdirAll`. -/
theorem mem_foldl_insertDir (l : List Path) (acc : List Path) (y : Path)
    (h : y ∈ acc ∨ y ∈ l) :
    y ∈ l.foldl (fun ds d => if d ∈ ds then ds else ds ++ [d]) acc := by
  induction l generalizing acc with
  | nil => simpa using h
  | cons d rest ih =>
      simp only [List.foldl_cons]
      apply ih
      rcases h with h | h
      · left
        by_cases hd : d ∈ acc
        · simpa [hd] using h
        · simp only [hd, if_false]
          exact List.mem_append_left _ h
      · rcases List.mem_cons.mp h with rfl | h2
        · left
          by_cases hd : y ∈ acc
          · rw [if_pos hd]
            exact hd
          · simp only [hd, if_false]
            exact List.mem_append_right _ (by simp)
        · right
          exact h2

/-- After `mkdirAll p`, every prefix of `p` is a recorded directory. -/
theorem mkdirAll_mem_dirs (fs : FS) (p d : Path) (h : d <+: p) :
    d ∈ (fs.mkdirAll p).dirs := by
  unfold FS.mkdirAll
  exact mem_foldl_insertDir _ _ _ (.inr ((List.mem_inits _ _).mpr h))

/-- `copyFile` leaves the directory set unchanged. -/
theorem copyFile_dirs (fs : FS) (src dst : Path) :
    (copyFile fs src dst).1.dirs = fs.dirs := by
  unfold copyFile
  rcases h : readSourceFile fs src with ⟨fs1, r⟩
  have h1 : fs1.dirs = fs.dirs := by
    have hh := readSourceFile_dirs fs src
    rw [h] at hh
    exact hh
  cases r with
  | error e => exact h1
  | ok input => simpa using h1

/-- The materializer's directory effect is exactly its initial
`MkdirAll`. -/
theorem createFileFromTemplate_dirs (env : Env) (eng : TemplateEngine)
    (n : String) (file : FileStructure) (out : Path) (fs : FS) :
    (createFileFromTemplate env eng n file out fs).1.dirs =
      (fs.mkdirAll (pathJoin (pathJoin out [n]) (pathDir file.filename))).dirs := by
  simp only [createFileFromTemplate]
  by_cases hc : file.content ≠ ""
  · rw [if_pos hc]
    exact createTemplatedFile_dirs eng _ _ file.content file.values
  · rw [if_neg hc]
    by_cases hu : file.sourceURL ≠ ""
    · rw [if_pos hu]
      rcases hd : downloadFileContent env
          (fs.mkdirAll (pathJoin (pathJoin out [n]) (pathDir file.filename)))
          file.sourceURL with ⟨fs1, r⟩
      have h1 : fs1.dirs =
          (fs.mkdirAll (pathJoin (pathJoin out [n]) (pathDir file.filename))).dirs := by
        have hh := downloadFileContent_dirs env
          (fs.mkdirAll (pathJoin (pathJoin out [n]) (pathDir file.filename)))
          file.sourceURL
        rw [hd] at hh
        exact hh
      cases r with
      | error e => exact h1
      | ok content =>
          dsimp only
          rcases hct : createTemplatedFile eng fs1
              (pathJoin (pathJoin (pathJoin out [n]) (pathDir file.filename))
                (pathBase file.filename)) content file.values with ⟨fs2, r2⟩
          have h2 : fs2.dirs = fs1.dirs := by
            have hh := createTemplatedFile_dirs eng fs1
              (pathJoin (pathJoin (pathJoin out [n]) (pathDir file.filename))
                (pathBase file.filename)) content file.values
            rw [hct] at hh
            exact hh
          cases r2 with
          | error e => exact h2.trans h1
          | ok u => exact h2.trans h1
    · rw [if_neg hu]
      by_cases hs : file.sourceFile ≠ []
      · rw [if_pos hs]
        rcases hrs : readSourceFile
            (fs.mkdirAll (pathJoin (pathJoin out [n]) (pathDir file.filename)))
            file.sourceFile with ⟨fs1, r⟩
        have h1 : fs1.dirs =
            (fs.mkdirAll (pathJoin (pathJoin out [n]) (pathDir file.filename))).dirs := by
          have hh := readSourceFile_dirs
            (fs.mkdirAll (pathJoin (pathJoin out [n]) (pathDir file.filename)))
            file.sourceFile
          rw [hrs] at hh
          exact hh
        cases r with
        | error e => exact h1
        | ok content =>
            dsimp only
            rcases hct : createTemplatedFile eng fs1
                (pathJoin (pathJoin (pathJoin out [n]) (pathDir file.filename))
                  (pathBase file.filename)) content file.values with ⟨fs2, r2⟩
            have h2 : fs2.dirs = fs1.dirs := by
              have hh := createTemplatedFile_dirs eng fs1
                (pathJoin (pathJoin (pathJoin out [n]) (pathDir file.filename))
                  (pathBase file.filename)) content file.values
              rw [hct] at hh
              exact hh
            cases r2 with
            | error e =>
                exact (copyFile_dirs fs2 file.sourceFile
                  (pathJoin (pathJoin (pathJoin out [n]) (pathDir file.filename))
                    (pathBase file.filename))).trans (h2.trans h1)
            | ok u => exact h2.trans h1
      · rw [if_neg hs]

/-- After any materialization, the repository root is a recorded
directory, so the state is locally wellformed at the root. -/
theorem createFileFromTemplate_dirOK (env : Env) (eng : TemplateEngine)
    (n : String) (file : FileStructure) (out : Path) (fs : FS) :
    (createFileFromTemplate env eng n file out fs).1.dirOK (pathJoin out [n]) = true := by
  have hmem : pathJoin out [n] ∈ (createFileFromTemplate env eng n file out fs).1.dirs := by
    rw [createFileFromTemplate_dirs]
    exact mkdirAll_mem_dirs fs _ _ ⟨pathDir file.filename, rfl⟩
  unfold FS.dirOK FS.pathExists
  simp [hmem]

/-- The file loop preserves local wellformedness at the root. -/
theorem processFileList_dirOK (env : Env) (eng : TemplateEngine) (n : String)
    (files : List FileStructure) (out : Path) (fs : FS)
    (h : fs.dirOK (pathJoin out [n]) = true) :
    (processFileList env eng n files out fs).1.dirOK (pathJoin out [n]) = true := by
  induction files generalizing fs with
  | nil => exact h
  | cons file rest ih =>
      rw [processFileList]
      rcases hc : createFileFromTemplate env eng n file out fs with ⟨fs1, r⟩
      have h1 : fs1.dirOK (pathJoin out [n]) = true := by
        have hh := createFileFromTemplate_dirOK env eng n file out fs
        rw [hc] at hh
        exact hh
      cases r with
      | error e => exact h1
      | ok u => exact ih fs1 h1

/-- The group loop preserves local wellformedness at the root. -/
theorem processGroups_dirOK (env : Env) (eng : TemplateEngine) (n : String)
    (groups : List TemplateGroupRef) (gg : List (String × List FileStructure))
    (out : Path) (fs : FS) (h : fs.dirOK (pathJoin out [n]) = true) :
    (processGroups env eng n groups gg out fs).1.dirOK (pathJoin out [n]) = true := by
  induction groups generalizing fs with
  | nil => exact h
  | cons groupRef rest ih =>
      rw [processGroups]
      cases mapGet gg groupRef.groupName with
      | none => exact h
      | some group =>
          dsimp only
          rcases hg : generateFilesFromTemplate env eng n
              (group.map (fun file =>
                { file with values := mergeValues groupRef.values file.values }))
              out fs with ⟨fs1, r⟩
          rw [hg]
          have h1 : fs1.dirOK (pathJoin out [n]) = true := by
            have hh := processFileList_dirOK env eng n
              (group.map (fun file =>
                { file with values := mergeValues groupRef.values file.values }))
              out fs h
            rw [show processFileList env eng n
                (group.map (fun file =>
                  { file with values := mergeValues groupRef.values file.values }))
                out fs = (fs1, r) from hg] at hh
            exact hh
          cases r with
          | error e => exact h1
          | ok u =>
              dsimp only
              exact ih fs1 h1

/-- `deleteExistingDir` preserves local wellformedness at the deleted
root. -/
theorem deleteExistingDir_dirOK (fs : FS) (root : Path)
    (h : fs.dirOK root = true) :
    (deleteExistingDir fs root).1.dirOK root = true := by
  unfold deleteExistingDir
  split
  · exact h
  · unfold FS.dirOK FS.removeAll
    dsimp only
    have hall : (fs.files.filter (fun e => !(root.isPrefixOf e.1))).all
        (fun e => !(root.isPrefixOf e.1)) = true := by
      rw [List.all_eq_true]
      intro e he
      exact (List.mem_filter.mp he).2
    simp [hall]

/-- Repository processing preserves local wellformedness at its root. -/
theorem processRepository_dirOK (env : Env) (eng : TemplateEngine)
    (repo : Repository) (gg : List (String × List FileStructure)) (out : Path)
    (fs : FS) (h : fs.dirOK (pathJoin out [repo.name]) = true) :
    (processRepository env eng repo gg out fs).1.dirOK (pathJoin out [repo.name]) = true := by
  rw [processRepository_eq]
  rcases hfl : processFileList env eng repo.name repo.files out
      (deleteExistingDir fs (pathJoin out [repo.name])).1 with ⟨fs2, r⟩
  have h1 : fs2.dirOK (pathJoin out [repo.name]) = true := by
    have hh := processFileList_dirOK env eng repo.name repo.files out
      (deleteExistingDir fs (pathJoin out [repo.name])).1
      (deleteExistingDir_dirOK fs (pathJoin out [repo.name]) h)
    rw [hfl] at hh
    exact hh
  cases r with
  | error e => exact h1
  | ok u =>
      dsimp only
      exact processGroups_dirOK env eng repo.name repo.groups gg out fs2 h1

/-- Two states with pointwise-equal file maps (directories and traces
may differ). -/
def FEq (a b : FS) : Prop := ∀ q, mapGet a.files q = mapGet b.files q

theorem mapGet_mapSet {K V : Type} [DecidableEq K] (m : List (K × V)) (k q : K)
    (v : V) : mapGet (mapSet m k v) q = if k = q then some v else mapGet m q := by
  by_cases h : k = q
  · subst h
    simp [mapGet_mapSet_self]
  · simp [h, mapGet_mapSet_ne _ _ _ _ h]

theorem mapGet_mapSet_congr {m m2 : List (Path × String)}
    (h : ∀ q, mapGet m q = mapGet m2 q) (k : Path) (v : String) (q : Path) :
    mapGet (mapSet m k v) q = mapGet (mapSet m2 k v) q := by
  rw [mapGet_mapSet, mapGet_mapSet, h q]

/-- `createTemplatedFile` respects pointwise file-map equality. -/
theorem createTemplatedFile_congr (eng : TemplateEngine) (p : Path)
    (content : String) (values : Values) (fs fs2 : FS) (h : FEq fs fs2) :
    FEq (createTemplatedFile eng fs p content values).1
      (createTemplatedFile eng fs2 p content values).1 ∧
    (createTemplatedFile eng fs p content values).2 =
      (createTemplatedFile eng fs2 p content values).2 := by
  unfold createTemplatedFile
  cases eng.render content values with
  | parseError =>
      exact ⟨fun q => mapGet_mapSet_congr h p "" q, rfl⟩
  | execError po =>
      refine ⟨fun q => ?_, rfl⟩
      exact mapGet_mapSet_congr (fun r => mapGet_mapSet_congr h p "" r) p po q
  | ok o =>
      refine ⟨fun q => ?_, rfl⟩
      exact mapGet_mapSet_congr (fun r => mapGet_mapSet_congr h p "" r) p o q

/-- `readSourceFile` respects pointwise file-map equality. -/
theorem readSourceFile_congr (p : Path) (fs fs2 : FS) (h : FEq fs fs2) :
    FEq (readSourceFile fs p).1 (readSourceFile fs2 p).1 ∧
    (readSourceFile fs p).2 = (readSourceFile fs2 p).2 := by
  unfold readSourceFile
  simp only [FS.log_files]
  rw [h p]
  cases mapGet fs2.files p with
  | none => exact ⟨fun q => h q, rfl⟩
  | some c => exact ⟨fun q => h q, rfl⟩

/-- `downloadFileContent` respects pointwise file-map equality. -/
theorem downloadFileContent_congr (env : Env) (u : String) (fs fs2 : FS)
    (h : FEq fs fs2) :
    FEq (downloadFileContent env fs u).1 (downloadFileContent env fs2 u).1 ∧
    (downloadFileContent env fs u).2 = (downloadFileContent env fs2 u).2 := by
  unfold downloadFileContent
  cases env.net u with
  | none => exact ⟨fun q => h q, rfl⟩
  | some resp =>
      by_cases hs : resp.status ≥ 400
      · dsimp only
        simp only [if_pos hs]
        exact ⟨fun q => h q, trivial⟩
      · dsimp only
        simp only [if_neg hs]
        exact ⟨fun q => h q, trivial⟩

/-- `copyFile` respects pointwise file-map equality. -/
theorem copyFile_congr (src dst : Path) (fs fs2 : FS) (h : FEq fs fs2) :
    FEq (copyFile fs src dst).1 (copyFile fs2 src dst).1 ∧
    (copyFile fs src dst).2 = (copyFile fs2 src dst).2 := by
  unfold copyFile
  obtain ⟨h1, h2⟩ := readSourceFile_congr src fs fs2 h
  rcases hA : readSourceFile fs src with ⟨a, r⟩
  rcases hB : readSourceFile fs2 src with ⟨b, r2⟩
  rw [hA, hB] at h1 h2
  dsimp only at h1 h2
  subst h2
  cases r with
  | error e => exact ⟨h1, rfl⟩
  | ok input =>
      exact ⟨fun q => mapGet_mapSet_congr h1 dst input q, rfl⟩

/-- `createFileFromTemplate` respects pointwise file-map equality: its
result state (pointwise) and its outcome depend only on the input file
map, the environment and the engine. -/
theorem createFileFromTemplate_congr (env : Env) (eng : TemplateEngine)
    (n : String) (file : FileStructure) (out : Path) (fs fs2 : FS)
    (h : FEq fs fs2) :
    FEq (createFileFromTemplate env eng n file out fs).1
      (createFileFromTemplate env eng n file out fs2).1 ∧
    (createFileFromTemplate env eng n file out fs).2 =
      (createFileFromTemplate env eng n file out fs2).2 := by
  have hmk : FEq (fs.mkdirAll (pathJoin (pathJoin out [n]) (pathDir file.filename)))
      (fs2.mkdirAll (pathJoin (pathJoin out [n]) (pathDir file.filename))) :=
    fun q => h q
  simp only [createFileFromTemplate]
  by_cases hc : file.content ≠ ""
  · simp only [if_pos hc]
    exact createTemplatedFile_congr eng _ file.content file.values _ _ hmk
  · simp only [if_neg hc]
    by_cases hu : file.sourceURL ≠ ""
    · simp only [if_pos hu]
      obtain ⟨hd1, hd2⟩ := downloadFileContent_congr env file.sourceURL _ _ hmk
      rcases hA : downloadFileContent env
          (fs.mkdirAll (pathJoin (pathJoin out [n]) (pathDir file.filename)))
          file.sourceURL with ⟨a, r⟩
      rcases hB : downloadFileContent env
          (fs2.mkdirAll (pathJoin (pathJoin out [n]) (pathDir file.filename)))
          file.sourceURL with ⟨b, r2⟩
      rw [hA, hB] at hd1 hd2
      dsimp only at hd1 hd2
      subst hd2
      cases r with
      | error e => exact ⟨hd1, rfl⟩
      | ok content =>
          dsimp only
          obtain ⟨hc1, hc2⟩ := createTemplatedFile_congr eng
            (pathJoin (pathJoin (pathJoin out [n]) (pathDir file.filename))
              (pathBase file.filename)) content file.values a b hd1
          rcases hC : createTemplatedFile eng a
              (pathJoin (pathJoin (pathJoin out [n]) (pathDir file.filename))
                (pathBase file.filename)) content file.values with ⟨c, s⟩
          rcases hD : createTemplatedFile eng b
              (pathJoin (pathJoin (pathJoin out [n]) (pathDir file.filename))
                (pathBase file.filename)) content file.values with ⟨d, s2⟩
          rw [hC, hD] at hc1 hc2
          dsimp only at hc1 hc2
          subst hc2
          cases s with
          | error e =>
              refine ⟨fun q => ?_, rfl⟩
              exact mapGet_mapSet_congr hc1 _ content q
          | ok u => exact ⟨hc1, rfl⟩
    · simp only [if_neg hu]
      by_cases hsf : file.sourceFile ≠ []
      · simp only [if_pos hsf]
        obtain ⟨hr1, hr2⟩ := readSourceFile_congr file.sourceFile _ _ hmk
        rcases hA : readSourceFile
            (fs.mkdirAll (pathJoin (pathJoin out [n]) (pathDir file.filename)))
            file.sourceFile with ⟨a, r⟩
        rcases hB : readSourceFile
            (fs2.mkdirAll (pathJoin (pathJoin out [n]) (pathDir file.filename)))
            file.sourceFile with ⟨b, r2⟩
        rw [hA, hB] at hr1 hr2
        dsimp only at hr1 hr2
        subst hr2
        cases r with
        | error e => exact ⟨hr1, rfl⟩
        | ok content =>
            dsimp only
            obtain ⟨hc1, hc2⟩ := createTemplatedFile_congr eng
              (pathJoin (pathJoin (pathJoin out [n]) (pathDir file.filename))
                (pathBase file.filename)) content file.values a b hr1
            rcases hC : createTemplatedFile eng a
                (pathJoin (pathJoin (pathJoin out [n]) (pathDir file.filename))
                  (pathBase file.filename)) content file.values with ⟨c, s⟩
            rcases hD : createTemplatedFile eng b
                (pathJoin (pathJoin (pathJoin out [n]) (pathDir file.filename))
                  (pathBase file.filename)) content file.values with ⟨d, s2⟩
            rw [hC, hD] at hc1 hc2
            dsimp only at hc1 hc2
            subst hc2
            cases s with
            | error e =>
                exact copyFile_congr file.sourceFile
                  (pathJoin (pathJoin (pathJoin out [n]) (pathDir file.filename))
                    (pathBase file.filename)) c d hc1
            | ok u => exact ⟨hc1, rfl⟩
      · simp only [if_neg hsf]
        exact ⟨hmk, trivial⟩

/-- The file loop respects pointwise file-map equality. -/
theorem processFileList_congr (env : Env) (eng : TemplateEngine) (n : String)
    (files : List FileStructure) (out : Path) (fs fs2 : FS) (h : FEq fs fs2) :
    FEq (processFileList env eng n files out fs).1
      (processFileList env eng n files out fs2).1 ∧
    (processFileList env eng n files out fs).2 =
      (processFileList env eng n files out fs2).2 := by
  induction files generalizing fs fs2 with
  | nil => exact ⟨h, rfl⟩
  | cons file rest ih =>
      rw [processFileList, processFileList]
      obtain ⟨h1, h2⟩ := createFileFromTemplate_congr env eng n file out fs fs2 h
      rcases hA : createFileFromTemplate env eng n file out fs with ⟨a, r⟩
      rcases hB : createFileFromTemplate env eng n file out fs2 with ⟨b, r2⟩
      rw [hA, hB] at h1 h2
      dsimp only at h1 h2
      subst h2
      cases r with
      | error e => exact ⟨h1, rfl⟩
      | ok u => exact ih a b h1

/-- The group loop respects pointwise file-map equality. -/
theorem processGroups_congr (env : Env) (eng : TemplateEngine) (n : String)
    (groups : List TemplateGroupRef) (gg : List (String × List FileStructure))
    (out : Path) (fs fs2 : FS) (h : FEq fs fs2) :
    FEq (processGroups env eng n groups gg out fs).1
      (processGroups env eng n groups gg out fs2).1 ∧
    (processGroups env eng n groups gg out fs).2 =
      (processGroups env eng n groups gg out fs2).2 := by
  induction groups generalizing fs fs2 with
  | nil => exact ⟨h, rfl⟩
  | cons groupRef rest ih =>
      rw [processGroups, processGroups]
      cases mapGet gg groupRef.groupName with
      | none => exact ⟨h, rfl⟩
      | some group =>
          dsimp only
          obtain ⟨h1, h2⟩ := processFileList_congr env eng n
            (group.map (fun file =>
              { file with values := mergeValues groupRef.values file.values }))
            out fs fs2 h
          rcases hA : generateFilesFromTemplate env eng n
              (group.map (fun file =>
                { file with values := mergeValues groupRef.values file.values }))
              out fs with ⟨a, r⟩
          rcases hB : generateFilesFromTemplate env eng n
              (group.map (fun file =>
                { file with values := mergeValues groupRef.values file.values }))
              out fs2 with ⟨b, r2⟩
          rw [show processFileList env eng n
              (group.map (fun file =>
                { file with values := mergeValues groupRef.values file.values }))
              out fs = (a, r) from hA,
            show processFileList env eng n
              (group.map (fun file =>
                { file with values := mergeValues groupRef.values file.values }))
              out fs2 = (b, r2) from hB] at h1 h2
          dsimp only at h1 h2
          subst h2
          rw [hA, hB]
          cases r with
          | error e => exact ⟨h1, rfl⟩
          | ok u =>
              dsimp only
              exact ih a b h1

/-- **C7**: repository processing first clears the repository's output
subtree — on a locally wellformed state nothing survives under
`outputRoot/repository.name` after the delete step, and absence of the
directory is not an error — so a second run for the same repository
name produces exactly the same file map and outcome as if the first run
had never happened: no leftovers from the first run survive.  (States
are compared pointwise on the file map; `dirOK` states the real-world
invariant that a directory containing files exists.) -/
theorem claim_C7_idempotent_reset (env : Env) (eng : TemplateEngine)
    (repoA repoB : Repository) (gg : List (String × List FileStructure))
    (out : Path) (fs0 : FS) (hname : repoB.name = repoA.name)
    (hok : fs0.dirOK (pathJoin out [repoA.name]) = true) :
    FEq (processRepository env eng repoB gg out
        (processRepository env eng repoA gg out fs0).1).1
      (processRepository env eng repoB gg out fs0).1 ∧
    (processRepository env eng repoB gg out
        (processRepository env eng repoA gg out fs0).1).2 =
      (processRepository env eng repoB gg out fs0).2 ∧
    (∀ q, pathJoin out [repoA.name] <+: q →
      mapGet (deleteExistingDir fs0 (pathJoin out [repoA.name])).1.files q = none) ∧
    (∀ (fs : FS) (p : Path), fs.pathExists p = false →
      deleteExistingDir fs p = (fs, .ok ())) := by
  have hB : ∀ fsa : FS, fsa.dirOK (pathJoin out [repoA.name]) = true →
      (∀ q, ¬ pathJoin out [repoA.name] <+: q →
        mapGet fsa.files q = mapGet fs0.files q) →
      FEq (processRepository env eng repoB gg out fsa).1
        (processRepository env eng repoB gg out fs0).1 ∧
      (processRepository env eng repoB gg out fsa).2 =
        (processRepository env eng repoB gg out fs0).2 := by
    intro fsa hok2 houts
    have hD : FEq (deleteExistingDir fsa (pathJoin out [repoA.name])).1
        (deleteExistingDir fs0 (pathJoin out [repoA.name])).1 := by
      intro q
      by_cases hq : pathJoin out [repoA.name] <+: q
      · rw [deleteExistingDir_files_under fsa _ q hok2 hq,
          deleteExistingDir_files_under fs0 _ q hok hq]
      · rw [deleteExistingDir_files_outside fsa _ q hq,
          deleteExistingDir_files_outside fs0 _ q hq]
        exact houts q hq
    rw [processRepository_eq env eng repoB gg out fsa,
      processRepository_eq env eng repoB gg out fs0]
    rw [hname]
    obtain ⟨h1, h2⟩ := processFileList_congr env eng repoB.name repoB.files out
      (deleteExistingDir fsa (pathJoin out [repoA.name])).1
      (deleteExistingDir fs0 (pathJoin out [repoA.name])).1 hD
    rw [hname] at h1 h2
    rcases hX : processFileList env eng repoA.name repoB.files out
        (deleteExistingDir fsa (pathJoin out [repoA.name])).1 with ⟨x, rx⟩
    rcases hY : processFileList env eng repoA.name repoB.files out
        (deleteExistingDir fs0 (pathJoin out [repoA.name])).1 with ⟨y, ry⟩
    rw [hX, hY] at h1 h2
    dsimp only at h1 h2
    subst h2
    cases rx with
    | error e => exact ⟨h1, rfl⟩
    | ok u =>
        dsimp only
        have hPG := processGroups_congr env eng repoB.name repoB.groups gg out x y h1
        rw [hname] at hPG
        exact hPG
  refine ⟨(hB (processRepository env eng repoA gg out fs0).1
      (processRepository_dirOK env eng repoA gg out fs0 hok)
      (fun q hq => processRepository_files_outside env eng repoA gg out fs0 q hq)).1,
    (hB (processRepository env eng repoA gg out fs0).1
      (processRepository_dirOK env eng repoA gg out fs0 hok)
      (fun q hq => processRepository_files_outside env eng repoA gg out fs0 q hq)).2,
    ?_, ?_⟩
  · intro q hq
    exact deleteExistingDir_files_under fs0 _ q hok hq
  · intro fs p hex
    simp [deleteExistingDir, hex]

/-- The first run's repository of the C7 witness. -/
def repoRunA : Repository :=
  { name := "r",
    files := [{ filename := ["a.txt"], sourceFile := [], sourceURL := "",
                content := "A", values := [] }],
    groups := [] }

/-- The second run's repository of the C7 witness (same name, different
file set). -/
def repoRunB : Repository :=
  { name := "r",
    files := [{ filename := ["b.txt"], sourceFile := [], sourceURL := "",
                content := "B", values := [] }],
    groups := [] }

/-- Witness for C7: rerunning with a different file set, the first
run's `a.txt` is absent and the state agrees with a fresh second run;
deleting a missing directory is a no-op success. -/
theorem claim_C7_idempotent_reset_witness :
    mapGet (processRepository demoEnv demoEng repoRunB [] ["out"]
        (processRepository demoEnv demoEng repoRunA [] ["out"] FS.empty).1).1.files
      ["out", "r", "a.txt"] =
      mapGet (processRepository demoEnv demoEng repoRunB [] ["out"]
        FS.empty).1.files ["out", "r", "a.txt"] ∧
    (processRepository demoEnv demoEng repoRunB [] ["out"]
        (processRepository demoEnv demoEng repoRunA [] ["out"] FS.empty).1).2 =
      (processRepository demoEnv demoEng repoRunB [] ["out"] FS.empty).2 ∧
    deleteExistingDir FS.empty ["out", "x"] = (FS.empty, .ok ()) :=
  ⟨(claim_C7_idempotent_reset demoEnv demoEng repoRunA repoRunB [] ["out"]
      FS.empty rfl (by decide)).1 ["out", "r", "a.txt"],
   (claim_C7_idempotent_reset demoEnv demoEng repoRunA repoRunB [] ["out"]
      FS.empty rfl (by decide)).2.1,
   (claim_C7_idempotent_reset demoEnv demoEng repoRunA repoRunB [] ["out"]
      FS.empty rfl (by decide)).2.2.2 FS.empty ["out", "x"] (by decide)⟩

end Structuresmith
